import Mathlib

/-!
Shallow embedding of the task-delegation core of the `agents` repository
(`src/python/teams/base_leader_agent.py`, `src/python/teams/bakery_team/bakery_leader.py`,
`src/python/task_scheduler/task_scheduler.py`) together with theorems settling the
specification claims about it.

Modelling conventions:
* Python `datetime.now()` timestamps are natural numbers (seconds); all clock reads
  inside one method call are modelled by a single `now` parameter of that call.
* Python dicts are insertion-ordered association lists; assigning to an existing key
  updates the entry in place (keeping its position), assigning a fresh key appends.
* A Python callable that may raise is a Lean function into `Except String _`, the
  `String` being the stringified exception (`str(e)`).
-/

namespace Agents

/-- Insertion-ordered dict write: update in place if the key exists, else append.
Mirrors `d[k] = v` on a Python dict. -/
def dictSet {α : Type _} : List (String × α) → String → α → List (String × α)
  | [], k, v => [(k, v)]
  | (k', v') :: rest, k, v =>
    if k' = k then (k, v) :: rest else (k', v') :: dictSet rest k v

/-- Dict lookup, first matching key. Mirrors `d.get(k)` on a Python dict. -/
def dictGet {α : Type _} : List (String × α) → String → Option α
  | [], _ => none
  | (k', v') :: rest, k => if k' = k then some v' else dictGet rest k

theorem dictGet_dictSet_self {α : Type _} (m : List (String × α)) (k : String) (v : α) :
    dictGet (dictSet m k v) k = some v := by
  induction m with
  | nil => simp [dictSet, dictGet]
  | cons p rest ih =>
    by_cases h : p.1 = k
    · simp [dictSet, dictGet, h]
    · simp [dictSet, dictGet, h, ih]

theorem dictSet_self {α : Type _} (m : List (String × α)) (k : String) (v : α)
    (h : dictGet m k = some v) : dictSet m k v = m := by
  induction m with
  | nil => simp [dictGet] at h
  | cons p rest ih =>
    by_cases hk : p.1 = k
    · simp [dictGet, hk] at h
      subst hk
      simp [dictSet, ← h]
    · simp [dictGet, hk] at h
      simp [dictSet, hk, ih h]

/-! ### Task records (`base_leader_agent.py`, class `Task`) -/

/-- The `TaskStatus` enum. -/
inductive TaskStatus
  | pending
  | inProgress
  | completed
  | failed
  | delegated
deriving DecidableEq, Repr

/-- The `TaskPriority` enum. -/
inductive TaskPriority
  | low
  | medium
  | high
  | critical
deriving DecidableEq, Repr

/-- A delegatable task (`Task.__init__`).  `μ` is the type of the `metadata`
mapping, `ρ` the type of worker results. -/
structure Task (μ ρ : Type) where
  task_id : String
  description : String
  task_type : String
  priority : TaskPriority
  assigned_to : Option String
  status : TaskStatus
  created_at : Nat
  completed_at : Option Nat
  result : Option ρ
  error : Option String
  metadata : μ
deriving Repr

/-- The `Task(task_id, description, task_type, priority, assigned_to, metadata)`:
the constructor defaults (`status = PENDING`, no result/error/completion). -/
def mkTask {μ ρ : Type} (task_id description task_type : String)
    (priority : TaskPriority) (assigned_to : Option String) (metadata : μ)
    (now : Nat) : Task μ ρ :=
  { task_id := task_id, description := description, task_type := task_type
    priority := priority, assigned_to := assigned_to, status := .pending
    created_at := now, completed_at := none, result := none, error := none
    metadata := metadata }

/-! ### Capability registry (`BaseLeaderAgent.team_members`) -/

/-- One registry entry: the dict built by `register_agent`. -/
structure AgentData (μ ρ : Type) where
  inst : μ → Except String ρ
  capabilities : List String
  tasks_assigned : Nat
  tasks_completed : Nat
  tasks_failed : Nat

/-- The `self.team_members`: insertion-ordered mapping agent name → entry. -/
abbrev Members (μ ρ : Type) := List (String × AgentData μ ρ)

/-- The `register_agent(agent_name, agent_instance, capabilities)`: inserts (or silently
overwrites) the entry with fresh zero counters. -/
def register_agent {μ ρ : Type} (m : Members μ ρ) (agent_name : String)
    (agent_instance : μ → Except String ρ) (capabilities : List String) : Members μ ρ :=
  dictSet m agent_name
    { inst := agent_instance, capabilities := capabilities
      tasks_assigned := 0, tasks_completed := 0, tasks_failed := 0 }

/-- Update the entry stored under `n` in place (Python mutates the entry dict). -/
def mapVal {μ ρ : Type} (m : Members μ ρ) (n : String)
    (g : AgentData μ ρ → AgentData μ ρ) : Members μ ρ :=
  m.map fun p => if p.1 = n then (p.1, g p.2) else p

/-- The `chosen_agent_data['tasks_assigned'] += 1`. -/
def bumpAssigned {μ ρ : Type} (m : Members μ ρ) (n : String) : Members μ ρ :=
  mapVal m n fun d => { d with tasks_assigned := d.tasks_assigned + 1 }

/-- The `agent_data['tasks_completed'] += 1`. -/
def bumpCompleted {μ ρ : Type} (m : Members μ ρ) (n : String) : Members μ ρ :=
  mapVal m n fun d => { d with tasks_completed := d.tasks_completed + 1 }

/-- The `agent_data['tasks_failed'] += 1`. -/
def bumpFailed {μ ρ : Type} (m : Members μ ρ) (n : String) : Members μ ρ :=
  mapVal m n fun d => { d with tasks_failed := d.tasks_failed + 1 }

/-! ### Delegator (`BaseLeaderAgent.delegate_task`) -/

/-- The `capable_agents` list comprehension: registered entries whose capability
list contains the task type, in registration order. -/
def find_capable {μ ρ : Type} (m : Members μ ρ) (task_type : String) :
    List (String × AgentData μ ρ) :=
  m.filter fun p => p.2.capabilities.contains task_type

/-- Python `min(capable_agents, key=lambda x: x[1]['tasks_assigned'])`: the first
element attaining the minimal counter (a later element replaces the running best
only when strictly smaller). -/
def chooseMinAssigned {μ ρ : Type} :
    List (String × AgentData μ ρ) → Option (String × AgentData μ ρ)
  | [] => none
  | p :: rest =>
    some (rest.foldl
      (fun best q => if q.2.tasks_assigned < best.2.tasks_assigned then q else best) p)

/-- The `f"No agent available for task type: {task.task_type}"`. -/
def noAgentMsg (task_type : String) : String :=
  "No agent available for task type: " ++ task_type

/-- The `delegate_task(task)`: returns the updated registry, the updated task record and
the boolean result. -/
def delegate_task {μ ρ : Type} (m : Members μ ρ) (t : Task μ ρ) :
    Members μ ρ × Task μ ρ × Bool :=
  match chooseMinAssigned (find_capable m t.task_type) with
  | none =>
    (m, { t with status := .failed, error := some (noAgentMsg t.task_type) }, false)
  | some chosen =>
    (bumpAssigned m chosen.1,
     { t with assigned_to := some chosen.1, status := .delegated }, true)

/-! ### Executor (`BaseLeaderAgent.execute_task`) -/

/-- The `execute_task(task)`: returns the updated registry, the updated task record,
whether the worker `execute` was actually invoked, and the outcome (`.error` is a
raised exception: re-raised by `execute_task`, caught by `execute_goal`). -/
def execute_task {μ ρ : Type} (m : Members μ ρ) (t : Task μ ρ) (now : Nat) :
    Members μ ρ × Task μ ρ × Bool × Except String ρ :=
  match t.assigned_to with
  | none => (m, t, false, .error "Task not assigned to any agent")
  | some name =>
    match dictGet m name with
    | none => (m, t, false, .error ("Agent " ++ name ++ " not found"))
    | some agent_data =>
      let t1 := { t with status := TaskStatus.inProgress }
      match agent_data.inst t1.metadata with
      | .ok r =>
        (bumpCompleted m name,
         { t1 with result := some r, status := .completed, completed_at := some now },
         true, .ok r)
      | .error e =>
        (bumpFailed m name,
         { t1 with status := .failed, error := some e, completed_at := some now },
         true, .error e)

/-! ### Goal orchestrator (`BaseLeaderAgent.execute_goal`), phases 2 and 3.

Planning and aggregation are abstract methods of the base class; `execute_goal` is
modelled on the already-planned task list.  The delegation phase runs over every
task; the execution phase wraps each `execute_task` in `try/except` (the error is
logged and the loop continues). -/

/-- Phase 2: `for task in tasks: self.delegate_task(task)`.  Also records each
boolean result (`dflags`). -/
def delegateAll {μ ρ : Type} (m : Members μ ρ) :
    List (Task μ ρ) → Members μ ρ × List (Task μ ρ) × List Bool
  | [] => (m, [], [])
  | t :: ts =>
    let d := delegate_task m t
    let rest := delegateAll d.1 ts
    (rest.1, d.2.1 :: rest.2.1, d.2.2 :: rest.2.2)

/-- Phase 3: the executor loop.  Each step runs `execute_task` and discards the
raised exception, continuing with the remaining tasks; the per-task invocation
flag and outcome are recorded. -/
def executeAll {μ ρ : Type} (m : Members μ ρ) (now : Nat) :
    List (Task μ ρ) → Members μ ρ × List (Task μ ρ) × List (Bool × Except String ρ)
  | [] => (m, [], [])
  | t :: ts =>
    let e := execute_task m t now
    let rest := executeAll e.1 now ts
    (rest.1, e.2.1 :: rest.2.1, (e.2.2.1, e.2.2.2) :: rest.2.2)

/-- The `execute_goal(goal, context)` after planning: delegate every task, then execute
every task, returning the final registry and final task records. -/
def execute_goal {μ ρ : Type} (m : Members μ ρ) (planned : List (Task μ ρ))
    (now : Nat) : Members μ ρ × List (Task μ ρ) :=
  let d := delegateAll m planned
  let e := executeAll d.1 now d.2.1
  (e.1, e.2.1)

/-- The executor loop in the exception monad: each iteration wraps
`execute_task` in `try/except` (the caught exception is logged and dropped), so
no iteration can surface an error. -/
def executeLoopE {μ ρ : Type} (now : Nat) :
    Members μ ρ → List (Task μ ρ) → Except String (Members μ ρ × List (Task μ ρ))
  | m, [] => .ok (m, [])
  | m, t :: ts =>
    -- try: self.execute_task(task) ... except Exception as e: logger.error(...)
    let e := execute_task m t now
    match executeLoopE now e.1 ts with
    | .ok (m', ts') => .ok (m', e.2.1 :: ts')
    | .error err => .error err

/-- The same pipeline as `execute_goal` but in the exception monad: an uncaught
exception inside the loops would surface as `.error`. -/
def execute_goalE {μ ρ : Type} (m : Members μ ρ) (planned : List (Task μ ρ))
    (now : Nat) : Except String (Members μ ρ × List (Task μ ρ)) :=
  let d := delegateAll m planned
  executeLoopE now d.1 d.2.1

/-! ### Lemmas about the registry operations -/

theorem dictGet_mapVal_self {μ ρ : Type} (m : Members μ ρ) (n : String)
    (g : AgentData μ ρ → AgentData μ ρ) :
    dictGet (mapVal m n g) n = (dictGet m n).map g := by
  induction m with
  | nil => simp [mapVal, dictGet]
  | cons p rest ih =>
    simp only [mapVal, List.map_cons] at ih ⊢
    by_cases hn : p.1 = n
    · rw [if_pos hn]
      simp [dictGet, hn]
    · rw [if_neg hn]
      simp [dictGet, hn, ih]

theorem dictGet_mapVal_ne {μ ρ : Type} (m : Members μ ρ) (n : String)
    (g : AgentData μ ρ → AgentData μ ρ) (k : String) (hk : k ≠ n) :
    dictGet (mapVal m n g) k = dictGet m k := by
  induction m with
  | nil => simp [mapVal, dictGet]
  | cons p rest ih =>
    simp only [mapVal, List.map_cons] at ih ⊢
    by_cases hpn : p.1 = n
    · rw [if_pos hpn]
      have hpk : ¬ p.1 = k := fun h => hk ((h ▸ hpn : k = n))
      simp [dictGet, hpk, ih]
    · rw [if_neg hpn]
      by_cases hpk : p.1 = k
      · simp [dictGet, hpk]
      · simp [dictGet, hpk, ih]

theorem mem_dictGet_isSome {μ ρ : Type} (m : Members μ ρ)
    (p : String × AgentData μ ρ) (hp : p ∈ m) : (dictGet m p.1).isSome := by
  induction m with
  | nil => cases hp
  | cons q rest ih =>
    rcases List.mem_cons.mp hp with rfl | h
    · simp [dictGet]
    · by_cases hq : q.1 = p.1
      · simp [dictGet, hq]
      · simpa [dictGet, hq] using ih h

/-- Counter bumps touch neither the key set nor the capability lists, so the
`find_capable` result only has its counters rewritten. -/
theorem find_capable_mapVal {μ ρ : Type} (m : Members μ ρ) (n : String)
    (g : AgentData μ ρ → AgentData μ ρ)
    (hg : ∀ d, (g d).capabilities = d.capabilities) (ty : String) :
    find_capable (mapVal m n g) ty =
      (find_capable m ty).map fun p => if p.1 = n then (p.1, g p.2) else p := by
  unfold find_capable mapVal
  rw [List.filter_map]
  congr 1
  apply List.filter_congr
  intro x _
  by_cases hx : x.1 = n <;> simp [Function.comp, hx, hg]

/-- Invariant relating a registry to an evolved registry: same keys resolvable,
same capability coverage. -/
def MPres {μ ρ : Type} (m m' : Members μ ρ) : Prop :=
  (∀ k, (dictGet m' k).isSome = (dictGet m k).isSome) ∧
  (∀ ty, find_capable m' ty = [] ↔ find_capable m ty = [])

theorem MPres.refl {μ ρ : Type} (m : Members μ ρ) : MPres m m :=
  ⟨fun _ => rfl, fun _ => Iff.rfl⟩

theorem MPres.trans {μ ρ : Type} {m1 m2 m3 : Members μ ρ}
    (h12 : MPres m1 m2) (h23 : MPres m2 m3) : MPres m1 m3 :=
  ⟨fun k => (h23.1 k).trans (h12.1 k), fun ty => (h23.2 ty).trans (h12.2 ty)⟩

theorem MPres.mapVal {μ ρ : Type} (m : Members μ ρ) (n : String)
    (g : AgentData μ ρ → AgentData μ ρ)
    (hg : ∀ d, (g d).capabilities = d.capabilities) : MPres m (mapVal m n g) := by
  constructor
  · intro k
    by_cases hk : k = n
    · subst hk; rw [dictGet_mapVal_self]; cases dictGet m k <;> rfl
    · rw [dictGet_mapVal_ne m n g k hk]
  · intro ty
    rw [find_capable_mapVal m n g hg ty]
    simp

theorem MPres.bumpAssigned {μ ρ : Type} (m : Members μ ρ) (n : String) :
    MPres m (bumpAssigned m n) :=
  MPres.mapVal m n _ (fun _ => rfl)

theorem MPres.bumpCompleted {μ ρ : Type} (m : Members μ ρ) (n : String) :
    MPres m (bumpCompleted m n) :=
  MPres.mapVal m n _ (fun _ => rfl)

theorem MPres.bumpFailed {μ ρ : Type} (m : Members μ ρ) (n : String) :
    MPres m (bumpFailed m n) :=
  MPres.mapVal m n _ (fun _ => rfl)

theorem MPres.delegate_task {μ ρ : Type} (m : Members μ ρ) (t : Task μ ρ) :
    MPres m (delegate_task m t).1 := by
  cases h : chooseMinAssigned (find_capable m t.task_type) with
  | none =>
    simp only [Agents.delegate_task, h]
    exact MPres.refl m
  | some chosen =>
    simp only [Agents.delegate_task, h]
    exact MPres.bumpAssigned m chosen.1

theorem MPres.execute_task {μ ρ : Type} (m : Members μ ρ) (t : Task μ ρ) (now : Nat) :
    MPres m (execute_task m t now).1 := by
  cases ha : t.assigned_to with
  | none =>
    simp only [Agents.execute_task, ha]
    exact MPres.refl m
  | some nm =>
    cases hd : dictGet m nm with
    | none =>
      simp only [Agents.execute_task, ha, hd]
      exact MPres.refl m
    | some agent_data =>
      cases hi : agent_data.inst t.metadata with
      | ok r =>
        simp only [Agents.execute_task, ha, hd, hi]
        exact MPres.bumpCompleted m nm
      | error e =>
        simp only [Agents.execute_task, ha, hd, hi]
        exact MPres.bumpFailed m nm

/-! ### The `min(..., key=...)` characterization: first minimum wins -/

/-- One step of Python's `min` scan. -/
def minStep {μ ρ : Type} (best q : String × AgentData μ ρ) :
    String × AgentData μ ρ :=
  if q.2.tasks_assigned < best.2.tasks_assigned then q else best

theorem chooseMin_cons {μ ρ : Type} (p : String × AgentData μ ρ) (rest) :
    chooseMinAssigned (p :: rest) = some (rest.foldl minStep p) := rfl

/-- The scan returns the element at the least index attaining the minimal
`tasks_assigned`: every strictly earlier element is strictly larger, every
element is at least it. -/
theorem foldlMin_spec {μ ρ : Type} (rest : List (String × AgentData μ ρ))
    (p : String × AgentData μ ρ) :
    ∃ i, ∃ h : i < (p :: rest).length,
      (p :: rest).get ⟨i, h⟩ = rest.foldl minStep p ∧
      (∀ j (hj : j < i),
        (rest.foldl minStep p).2.tasks_assigned <
          ((p :: rest).get ⟨j, Nat.lt_trans hj h⟩).2.tasks_assigned) ∧
      (∀ q ∈ p :: rest,
        (rest.foldl minStep p).2.tasks_assigned ≤ q.2.tasks_assigned) := by
  induction rest generalizing p with
  | nil =>
    refine ⟨0, by simp, rfl, ?_, ?_⟩
    · intro j hj; exact absurd hj (Nat.not_lt_zero j)
    · intro q hq
      rcases List.mem_singleton.mp hq with rfl
      exact Nat.le_refl _
  | cons q rest ih =>
    rw [List.foldl_cons]
    by_cases hlt : q.2.tasks_assigned < p.2.tasks_assigned
    · rw [show minStep p q = q from if_pos hlt]
      obtain ⟨i, h, hget, hfirst, hmin⟩ := ih q
      have hq_mem : q ∈ q :: rest := List.mem_cons_self q rest
      refine ⟨i + 1, by simpa using h, hget, ?_, ?_⟩
      · intro j hj
        cases j with
        | zero => exact Nat.lt_of_le_of_lt (hmin q hq_mem) hlt
        | succ j' => exact hfirst j' (Nat.lt_of_succ_lt_succ hj)
      · intro x hx
        rcases List.mem_cons.mp hx with rfl | hx
        · exact Nat.le_of_lt (Nat.lt_of_le_of_lt (hmin q hq_mem) hlt)
        · exact hmin x hx
    · rw [show minStep p q = p from if_neg hlt]
      obtain ⟨i, h, hget, hfirst, hmin⟩ := ih p
      have hpq : p.2.tasks_assigned ≤ q.2.tasks_assigned := Nat.le_of_not_lt hlt
      have hminPQ : ∀ x ∈ p :: q :: rest,
          (rest.foldl minStep p).2.tasks_assigned ≤ x.2.tasks_assigned := by
        intro x hx
        rcases List.mem_cons.mp hx with rfl | hx
        · exact hmin x (List.mem_cons_self x rest)
        rcases List.mem_cons.mp hx with rfl | hx
        · exact Nat.le_trans (hmin p (List.mem_cons_self p rest)) hpq
        · exact hmin x (List.mem_cons.mpr (Or.inr hx))
      cases i with
      | zero =>
        refine ⟨0, by simp, hget, ?_, hminPQ⟩
        intro j hj; exact absurd hj (Nat.not_lt_zero j)
      | succ i' =>
        have h' : i' + 2 < (p :: q :: rest).length := by
          simp only [List.length_cons] at h ⊢; omega
        refine ⟨i' + 2, h', hget, ?_, hminPQ⟩
        intro j hj
        cases j with
        | zero => exact hfirst 0 (Nat.succ_pos i')
        | succ j' =>
          cases j' with
          | zero => exact Nat.lt_of_lt_of_le (hfirst 0 (Nat.succ_pos i')) hpq
          | succ j'' => exact hfirst (j'' + 1) (by omega)

theorem chooseMin_spec {μ ρ : Type} (l : List (String × AgentData μ ρ))
    (chosen : String × AgentData μ ρ) (hl : chooseMinAssigned l = some chosen) :
    ∃ i, ∃ h : i < l.length,
      l.get ⟨i, h⟩ = chosen ∧
      (∀ j (hj : j < i),
        chosen.2.tasks_assigned <
          (l.get ⟨j, Nat.lt_trans hj h⟩).2.tasks_assigned) ∧
      (∀ q ∈ l, chosen.2.tasks_assigned ≤ q.2.tasks_assigned) := by
  match l with
  | [] => simp [chooseMinAssigned] at hl
  | p :: rest =>
    rw [chooseMin_cons] at hl
    obtain rfl : rest.foldl minStep p = chosen := Option.some.inj hl
    exact foldlMin_spec rest p

/-! ### Positional description of the two `execute_goal` phases -/

theorem delegateAll_tasks_length {μ ρ : Type} (m : Members μ ρ)
    (ts : List (Task μ ρ)) : (delegateAll m ts).2.1.length = ts.length := by
  induction ts generalizing m with
  | nil => rfl
  | cons t ts ih => simp [delegateAll, ih]

theorem delegateAll_flags_length {μ ρ : Type} (m : Members μ ρ)
    (ts : List (Task μ ρ)) : (delegateAll m ts).2.2.length = ts.length := by
  induction ts generalizing m with
  | nil => rfl
  | cons t ts ih => simp [delegateAll, ih]

theorem executeAll_tasks_length {μ ρ : Type} (m : Members μ ρ) (now : Nat)
    (ts : List (Task μ ρ)) : (executeAll m now ts).2.1.length = ts.length := by
  induction ts generalizing m with
  | nil => rfl
  | cons t ts ih => simp [executeAll, ih]

theorem executeAll_outcomes_length {μ ρ : Type} (m : Members μ ρ) (now : Nat)
    (ts : List (Task μ ρ)) : (executeAll m now ts).2.2.length = ts.length := by
  induction ts generalizing m with
  | nil => rfl
  | cons t ts ih => simp [executeAll, ih]

theorem MPres.delegateAll {μ ρ : Type} (m : Members μ ρ) (ts : List (Task μ ρ)) :
    MPres m (delegateAll m ts).1 := by
  induction ts generalizing m with
  | nil => exact MPres.refl m
  | cons t ts ih =>
    exact MPres.trans (MPres.delegate_task m t)
      (by simpa [Agents.delegateAll] using ih (Agents.delegate_task m t).1)

theorem MPres.executeAll {μ ρ : Type} (m : Members μ ρ) (now : Nat)
    (ts : List (Task μ ρ)) : MPres m (executeAll m now ts).1 := by
  induction ts generalizing m with
  | nil => exact MPres.refl m
  | cons t ts ih =>
    exact MPres.trans (MPres.execute_task m t now)
      (by simpa [Agents.executeAll] using ih (Agents.execute_task m t now).1)

/-- The `i`-th delegated task (and flag) is `delegate_task` applied to the `i`-th
planned task at some intermediate registry state reachable from `m`. -/
theorem delegateAll_get {μ ρ : Type} (m : Members μ ρ) (ts : List (Task μ ρ))
    (i : Nat) (h : i < ts.length) :
    ∃ mi : Members μ ρ, MPres m mi ∧
      ((delegateAll m ts).2.1)[i]? = some (delegate_task mi (ts.get ⟨i, h⟩)).2.1 ∧
      ((delegateAll m ts).2.2)[i]? = some (delegate_task mi (ts.get ⟨i, h⟩)).2.2 := by
  induction ts generalizing m i with
  | nil => exact absurd h (Nat.not_lt_zero i)
  | cons t ts ih =>
    cases i with
    | zero =>
      exact ⟨m, MPres.refl m, by simp [delegateAll], by simp [delegateAll]⟩
    | succ i' =>
      obtain ⟨mi, hmp, h1, h2⟩ := ih (delegate_task m t).1 i' (Nat.lt_of_succ_lt_succ h)
      exact ⟨mi, MPres.trans (MPres.delegate_task m t) hmp,
        by simpa [delegateAll] using h1, by simpa [delegateAll] using h2⟩

/-- The `i`-th final task record and outcome come from `execute_task` applied to
the `i`-th input task at some intermediate registry state reachable from `m`. -/
theorem executeAll_get {μ ρ : Type} (m : Members μ ρ) (now : Nat)
    (ts : List (Task μ ρ)) (i : Nat) (h : i < ts.length) :
    ∃ mi : Members μ ρ, MPres m mi ∧
      ((executeAll m now ts).2.1)[i]? = some (execute_task mi (ts.get ⟨i, h⟩) now).2.1 ∧
      ((executeAll m now ts).2.2)[i]? =
        some ((execute_task mi (ts.get ⟨i, h⟩) now).2.2.1,
              (execute_task mi (ts.get ⟨i, h⟩) now).2.2.2) := by
  induction ts generalizing m i with
  | nil => exact absurd h (Nat.not_lt_zero i)
  | cons t ts ih =>
    cases i with
    | zero =>
      exact ⟨m, MPres.refl m, by simp [executeAll], by simp [executeAll]⟩
    | succ i' =>
      obtain ⟨mi, hmp, h1, h2⟩ := ih (execute_task m t now).1 i' (Nat.lt_of_succ_lt_succ h)
      exact ⟨mi, MPres.trans (MPres.execute_task m t now) hmp,
        by simpa [executeAll] using h1, by simpa [executeAll] using h2⟩

/-- The exception-monad executor loop never surfaces an error: the per-task
`try/except` catches everything. -/
theorem executeLoopE_ok {μ ρ : Type} (now : Nat) (m : Members μ ρ)
    (ts : List (Task μ ρ)) :
    executeLoopE now m ts = .ok ((executeAll m now ts).1, (executeAll m now ts).2.1) := by
  induction ts generalizing m with
  | nil => rfl
  | cons t ts ih =>
    simp [executeLoopE, executeAll, ih]

theorem execute_goalE_ok {μ ρ : Type} (m : Members μ ρ) (ts : List (Task μ ρ))
    (now : Nat) : execute_goalE m ts now = .ok (execute_goal m ts now) := by
  simp [execute_goalE, execute_goal, executeLoopE_ok]

/-! ### Post-state facts about the two per-task operations -/

theorem chooseMin_mem {μ ρ : Type} (l : List (String × AgentData μ ρ))
    (chosen : String × AgentData μ ρ) (hl : chooseMinAssigned l = some chosen) :
    chosen ∈ l := by
  obtain ⟨i, h, hget, -, -⟩ := chooseMin_spec l chosen hl
  exact hget ▸ List.get_mem l i h

/-- The `delegate_task` either fails the task (leaving `assigned_to` untouched) or
delegates it to a worker resolvable in the updated registry. -/
theorem delegate_task_post {μ ρ : Type} (m : Members μ ρ) (t : Task μ ρ) :
    ((delegate_task m t).2.1.status = .failed ∧
      (delegate_task m t).2.1.assigned_to = t.assigned_to ∧
      (delegate_task m t).2.2 = false) ∨
    (∃ n, (delegate_task m t).2.1.status = .delegated ∧
      (delegate_task m t).2.1.assigned_to = some n ∧
      (dictGet (delegate_task m t).1 n).isSome ∧
      (delegate_task m t).2.2 = true) := by
  cases hc : chooseMinAssigned (find_capable m t.task_type) with
  | none =>
    left
    simp [delegate_task, hc]
  | some chosen =>
    right
    have hmem : chosen ∈ find_capable m t.task_type := chooseMin_mem _ chosen hc
    have hmem' : chosen ∈ m := List.mem_of_mem_filter hmem
    have hsome : (dictGet m chosen.1).isSome := mem_dictGet_isSome m chosen hmem'
    refine ⟨chosen.1, ?_, ?_, ?_, ?_⟩ <;>
      simp [delegate_task, hc, (MPres.bumpAssigned m chosen.1).1, hsome]

/-- The `execute_task` either leaves the task record untouched (the contract-violation
branches) or drives it to a terminal status. -/
theorem execute_task_status {μ ρ : Type} (m : Members μ ρ) (t : Task μ ρ)
    (now : Nat) :
    (execute_task m t now).2.1.status = .completed ∨
    (execute_task m t now).2.1.status = .failed ∨
    (execute_task m t now).2.1 = t := by
  cases ha : t.assigned_to with
  | none => right; right; simp [execute_task, ha]
  | some nm =>
    cases hd : dictGet m nm with
    | none => right; right; simp [execute_task, ha, hd]
    | some agent_data =>
      cases hi : agent_data.inst t.metadata with
      | ok r => left; simp [execute_task, ha, hd, hi]
      | error e => right; left; simp [execute_task, ha, hd, hi]

/-- A task assigned to a resolvable worker is driven to a terminal status. -/
theorem execute_task_terminal {μ ρ : Type} (m : Members μ ρ) (t : Task μ ρ)
    (now : Nat) (n : String) (ha : t.assigned_to = some n)
    (hs : (dictGet m n).isSome) :
    (execute_task m t now).2.1.status = .completed ∨
    (execute_task m t now).2.1.status = .failed := by
  obtain ⟨agent_data, hd⟩ := Option.isSome_iff_exists.mp hs
  cases hi : agent_data.inst t.metadata with
  | ok r => left; simp [execute_task, ha, hd, hi]
  | error e => right; simp [execute_task, ha, hd, hi]

/-- Characterization of a worker raise: if `execute_task` both invoked the worker
and produced an exception, the task record ends FAILED with the stringified
exception and the completion timestamp. -/
theorem execute_task_raise_char {μ ρ : Type} (m : Members μ ρ) (t : Task μ ρ)
    (now : Nat) (msg : String)
    (hinv : (execute_task m t now).2.2.1 = true)
    (herr : (execute_task m t now).2.2.2 = .error msg) :
    (execute_task m t now).2.1.status = .failed ∧
    (execute_task m t now).2.1.error = some msg ∧
    (execute_task m t now).2.1.completed_at = some now := by
  cases ha : t.assigned_to with
  | none => simp [execute_task, ha] at hinv
  | some nm =>
    cases hd : dictGet m nm with
    | none => simp [execute_task, ha, hd] at hinv
    | some agent_data =>
      cases hi : agent_data.inst t.metadata with
      | ok r => simp [execute_task, ha, hd, hi] at herr
      | error e =>
        have he : e = msg := by simpa [execute_task, ha, hd, hi] using herr
        subst he
        simp [execute_task, ha, hd, hi]

/-- Shape of a task entering the executor that guarantees a terminal result:
either it is already failed (delegation failure) or its assigned worker is
resolvable in the current registry. -/
def ExecReady {μ ρ : Type} (m : Members μ ρ) (t : Task μ ρ) : Prop :=
  t.status = .failed ∨ ∃ n, t.assigned_to = some n ∧ (dictGet m n).isSome

theorem executeAll_terminal {μ ρ : Type} (m : Members μ ρ) (now : Nat)
    (ts : List (Task μ ρ)) (hready : ∀ t ∈ ts, ExecReady m t)
    (j : Nat) (h : j < ts.length) :
    ∃ ft, ((executeAll m now ts).2.1)[j]? = some ft ∧
      (ft.status = .completed ∨ ft.status = .failed) := by
  induction ts generalizing m j with
  | nil => exact absurd h (Nat.not_lt_zero j)
  | cons t ts ih =>
    cases j with
    | zero =>
      refine ⟨(execute_task m t now).2.1, by simp [executeAll], ?_⟩
      rcases hready t (List.mem_cons_self t ts) with hf | ⟨n, ha, hs⟩
      · rcases execute_task_status m t now with h1 | h1 | h1
        · exact Or.inl h1
        · exact Or.inr h1
        · rw [h1]; exact Or.inr hf
      · exact execute_task_terminal m t now n ha hs
    | succ j' =>
      have hready' : ∀ x ∈ ts, ExecReady (execute_task m t now).1 x := by
        intro x hx
        rcases hready x (List.mem_cons.mpr (Or.inr hx)) with hf | ⟨n, ha, hs⟩
        · exact Or.inl hf
        · exact Or.inr ⟨n, ha, by rw [(MPres.execute_task m t now).1 n]; exact hs⟩
      obtain ⟨ft, h1, h2⟩ := ih (execute_task m t now).1 hready' j' (Nat.lt_of_succ_lt_succ h)
      exact ⟨ft, by simpa [executeAll] using h1, h2⟩

/-- Every task produced by the delegation phase is ready for the executor, with
respect to the registry the delegation phase produced. -/
theorem delegateAll_ready {μ ρ : Type} (m : Members μ ρ) (ts : List (Task μ ρ)) :
    ∀ t ∈ (delegateAll m ts).2.1, ExecReady (delegateAll m ts).1 t := by
  induction ts generalizing m with
  | nil => simp [delegateAll]
  | cons t ts ih =>
    intro x hx
    have hx' : x = (delegate_task m t).2.1 ∨
        x ∈ (delegateAll (delegate_task m t).1 ts).2.1 := by
      simpa [delegateAll] using hx
    have hone : (delegateAll m (t :: ts)).1 = (delegateAll (delegate_task m t).1 ts).1 := by
      simp [delegateAll]
    rcases hx' with rfl | hx'
    · rcases delegate_task_post m t with ⟨hf, -, -⟩ | ⟨n, -, ha, hlive, -⟩
      · exact Or.inl hf
      · refine Or.inr ⟨n, ha, ?_⟩
        rw [hone, (MPres.delegateAll (delegate_task m t).1 ts).1 n]
        exact hlive
    · rw [hone]
      exact ih (delegate_task m t).1 x hx'

/-- When no registered capability matches, delegation fails the task in place. -/
theorem delegate_task_no_capable {μ ρ : Type} (m : Members μ ρ) (t : Task μ ρ)
    (hty : find_capable m t.task_type = []) :
    delegate_task m t =
      (m, { t with status := .failed, error := some (noAgentMsg t.task_type) }, false) := by
  simp [delegate_task, hty, chooseMinAssigned]

/-- The unassigned-task contract violation: raised before any worker is touched. -/
theorem execute_task_unassigned {μ ρ : Type} (m : Members μ ρ) (t : Task μ ρ)
    (now : Nat) (ha : t.assigned_to = none) :
    execute_task m t now = (m, t, false, .error "Task not assigned to any agent") := by
  simp [execute_task, ha]

/-! ### Claims about the orchestrator -/

/-- C1: in an `execute_goal` run, if the worker invoked for the `i`-th task raises
(`msg` being the stringified exception), then that task's final record is FAILED
with `error = msg` and a completion timestamp; the exception does not surface to
`execute_goal`'s caller (the exception-monad pipeline returns `.ok`); and every
task of the batch — the later ones included — is still delegated and executed to a
terminal status, the output having one final record per planned task. -/
theorem claim_C1 {μ ρ : Type} (m : Members μ ρ) (ts : List (Task μ ρ)) (now : Nat)
    (i : Nat) (msg : String)
    (hraise : ((executeAll (delegateAll m ts).1 now (delegateAll m ts).2.1).2.2)[i]? =
      some (true, .error msg)) :
    (∃ ft, ((execute_goal m ts now).2)[i]? = some ft ∧ ft.status = .failed ∧
      ft.error = some msg ∧ ft.completed_at = some now) ∧
    execute_goalE m ts now = .ok (execute_goal m ts now) ∧
    (execute_goal m ts now).2.length = ts.length ∧
    (∀ j, j < ts.length →
      ∃ ft, ((execute_goal m ts now).2)[j]? = some ft ∧
        (ft.status = .completed ∨ ft.status = .failed)) := by
  have hgoal2 : (execute_goal m ts now).2 =
      (executeAll (delegateAll m ts).1 now (delegateAll m ts).2.1).2.1 := rfl
  have hlen : i < (delegateAll m ts).2.1.length := by
    obtain ⟨hlt, -⟩ := List.getElem?_eq_some.mp hraise
    rwa [executeAll_outcomes_length] at hlt
  refine ⟨?_, execute_goalE_ok m ts now, ?_, ?_⟩
  · obtain ⟨mi, -, hfin, hout⟩ :=
      executeAll_get (delegateAll m ts).1 now (delegateAll m ts).2.1 i hlen
    rw [hout] at hraise
    have hpair := Option.some.inj hraise
    have hinv : (execute_task mi ((delegateAll m ts).2.1.get ⟨i, hlen⟩) now).2.2.1 = true :=
      congrArg Prod.fst hpair
    have herr : (execute_task mi ((delegateAll m ts).2.1.get ⟨i, hlen⟩) now).2.2.2 = .error msg :=
      congrArg Prod.snd hpair
    obtain ⟨h1, h2, h3⟩ := execute_task_raise_char mi _ now msg hinv herr
    exact ⟨_, by rw [hgoal2]; exact hfin, h1, h2, h3⟩
  · rw [hgoal2, executeAll_tasks_length, delegateAll_tasks_length]
  · intro j hj
    have hj' : j < (delegateAll m ts).2.1.length := by
      rwa [delegateAll_tasks_length]
    obtain ⟨ft, h1, h2⟩ := executeAll_terminal (delegateAll m ts).1 now
      (delegateAll m ts).2.1 (delegateAll_ready m ts) j hj'
    exact ⟨ft, by rw [hgoal2]; exact h1, h2⟩

def membersC1 : Members Unit Nat :=
  [("w", { inst := fun _ => .error "boom", capabilities := ["x"]
           tasks_assigned := 0, tasks_completed := 0, tasks_failed := 0 })]

def tasksC1 : List (Task Unit Nat) :=
  [mkTask "task_1" "demo" "x" .medium none () 0]

/-- Witness for C1: a one-worker team whose worker raises `"boom"`. -/
theorem claim_C1_witness :
    (∃ ft, ((execute_goal membersC1 tasksC1 7).2)[0]? = some ft ∧
      ft.status = .failed ∧ ft.error = some "boom" ∧ ft.completed_at = some 7) ∧
    execute_goalE membersC1 tasksC1 7 = .ok (execute_goal membersC1 tasksC1 7) ∧
    (execute_goal membersC1 tasksC1 7).2.length = tasksC1.length ∧
    (∀ j, j < tasksC1.length →
      ∃ ft, ((execute_goal membersC1 tasksC1 7).2)[j]? = some ft ∧
        (ft.status = .completed ∨ ft.status = .failed)) :=
  claim_C1 membersC1 tasksC1 7 0 "boom" (by rfl)

/-- C3: in an `execute_goal` run, if the `i`-th planned task's type matches no
registered capability (and the planner left it unassigned, as `Task.__init__`
does), the task is failed in place with the explanatory error naming the type,
`delegate_task` returns `false` for it, no worker `execute` is ever invoked for
it during the run, and no exception surfaces to `execute_goal`'s caller. -/
theorem claim_C3 {μ ρ : Type} (m : Members μ ρ) (ts : List (Task μ ρ)) (now : Nat)
    (i : Nat) (h : i < ts.length)
    (hty : find_capable m (ts.get ⟨i, h⟩).task_type = [])
    (hasg : (ts.get ⟨i, h⟩).assigned_to = none) :
    (∃ ft, ((execute_goal m ts now).2)[i]? = some ft ∧ ft.status = .failed ∧
      ft.error = some (noAgentMsg (ts.get ⟨i, h⟩).task_type)) ∧
    ((delegateAll m ts).2.2)[i]? = some false ∧
    (∃ o, ((executeAll (delegateAll m ts).1 now (delegateAll m ts).2.1).2.2)[i]? =
      some (false, o)) ∧
    execute_goalE m ts now = .ok (execute_goal m ts now) := by
  have hgoal2 : (execute_goal m ts now).2 =
      (executeAll (delegateAll m ts).1 now (delegateAll m ts).2.1).2.1 := rfl
  obtain ⟨mi, hmp, hdtask, hdflag⟩ := delegateAll_get m ts i h
  have htyi : find_capable mi (ts.get ⟨i, h⟩).task_type = [] := (hmp.2 _).mpr hty
  have hdel := delegate_task_no_capable mi (ts.get ⟨i, h⟩) htyi
  set tfail : Task μ ρ :=
    { ts.get ⟨i, h⟩ with
      status := .failed,
      error := some (noAgentMsg (ts.get ⟨i, h⟩).task_type) } with htfail
  have hdtask' : ((delegateAll m ts).2.1)[i]? = some tfail := by
    rw [hdtask, hdel]
  have hdflag' : ((delegateAll m ts).2.2)[i]? = some false := by
    rw [hdflag, hdel]
  have hlen : i < (delegateAll m ts).2.1.length := by
    rwa [delegateAll_tasks_length]
  obtain ⟨mj, -, hfin, hout⟩ :=
    executeAll_get (delegateAll m ts).1 now (delegateAll m ts).2.1 i hlen
  have hgetfail : (delegateAll m ts).2.1.get ⟨i, hlen⟩ = tfail := by
    have := List.getElem?_eq_getElem hlen
    rw [hdtask'] at this
    exact (Option.some.inj this).symm
  have hafail : tfail.assigned_to = none := by
    rw [htfail]; exact hasg
  have hexec := execute_task_unassigned mj tfail now hafail
  refine ⟨⟨tfail, ?_, by rw [htfail], by rw [htfail]⟩, hdflag', ⟨?_, ?_⟩, execute_goalE_ok m ts now⟩
  · rw [hgoal2, hfin, hgetfail, hexec]
  · exact (execute_task mj tfail now).2.2.2
  · rw [hout, hgetfail, hexec]

def membersC3 : Members Unit Nat :=
  [("w", { inst := fun _ => .ok 1, capabilities := ["x"]
           tasks_assigned := 0, tasks_completed := 0, tasks_failed := 0 })]

def tasksC3 : List (Task Unit Nat) :=
  [mkTask "task_1" "demo" "z" .medium none () 0]

/-- Witness for C3: a team capable only of `"x"` facing a task of type `"z"`. -/
theorem claim_C3_witness :
    (∃ ft, ((execute_goal membersC3 tasksC3 7).2)[0]? = some ft ∧
      ft.status = .failed ∧ ft.error = some (noAgentMsg "z")) ∧
    ((delegateAll membersC3 tasksC3).2.2)[0]? = some false ∧
    (∃ o, ((executeAll (delegateAll membersC3 tasksC3).1 7
      (delegateAll membersC3 tasksC3).2.1).2.2)[0]? = some (false, o)) ∧
    execute_goalE membersC3 tasksC3 7 = .ok (execute_goal membersC3 tasksC3 7) :=
  claim_C3 membersC3 tasksC3 7 0 (by decide) (by rfl) (by rfl)

/-! ### Claim C2: least-loaded, first-registered-wins delegation -/

/-- Delegating `N` fresh tasks of the same type in sequence (only the registry
evolves; the produced task records are irrelevant here). -/
def delegateNTasks {μ ρ : Type} (m : Members μ ρ) (ty : String) (meta : μ) :
    Nat → Members μ ρ
  | 0 => m
  | n + 1 =>
    (delegate_task (delegateNTasks m ty meta n)
      (mkTask "" "" ty .medium none meta 0)).1

theorem twoTeam_step {μ ρ : Type} (n1 n2 : String)
    (f1 f2 : μ → Except String ρ) (caps1 caps2 : List String)
    (c1 g1 c2 g2 : Nat) (ty : String) (meta : μ) (a b : Nat)
    (hn : n1 ≠ n2) (h1 : caps1.contains ty = true) (h2 : caps2.contains ty = true) :
    (delegate_task [(n1, ⟨f1, caps1, a, c1, g1⟩), (n2, ⟨f2, caps2, b, c2, g2⟩)]
      (mkTask "" "" ty .medium none meta 0)).1 =
    if a ≤ b then
      [(n1, ⟨f1, caps1, a + 1, c1, g1⟩), (n2, ⟨f2, caps2, b, c2, g2⟩)]
    else
      [(n1, ⟨f1, caps1, a, c1, g1⟩), (n2, ⟨f2, caps2, b + 1, c2, g2⟩)] := by
  have hn' : ¬ n2 = n1 := fun h => hn h.symm
  have h1m : ty ∈ caps1 := by simpa using h1
  have h2m : ty ∈ caps2 := by simpa using h2
  by_cases hba : b < a
  · have hab : ¬ a ≤ b := by omega
    simp [delegate_task, find_capable, mkTask, h1m, h2m, chooseMinAssigned,
      bumpAssigned, mapVal, hn, hn', hba, hab]
  · have hab : a ≤ b := by omega
    simp [delegate_task, find_capable, mkTask, h1m, h2m, chooseMinAssigned,
      bumpAssigned, mapVal, hn, hn', hba, hab]

theorem twoTeam_split {μ ρ : Type} (n1 n2 : String)
    (f1 f2 : μ → Except String ρ) (caps1 caps2 : List String)
    (c1 g1 c2 g2 : Nat) (ty : String) (meta : μ) (N : Nat)
    (hn : n1 ≠ n2) (h1 : caps1.contains ty = true) (h2 : caps2.contains ty = true) :
    delegateNTasks [(n1, ⟨f1, caps1, 0, c1, g1⟩), (n2, ⟨f2, caps2, 0, c2, g2⟩)]
      ty meta N =
    [(n1, ⟨f1, caps1, (N + 1) / 2, c1, g1⟩), (n2, ⟨f2, caps2, N / 2, c2, g2⟩)] := by
  induction N with
  | zero => rfl
  | succ N ih =>
    show (delegate_task (delegateNTasks _ ty meta N) (mkTask "" "" ty .medium none meta 0)).1 = _
    rw [ih, twoTeam_step n1 n2 f1 f2 caps1 caps2 c1 g1 c2 g2 ty meta _ _ hn h1 h2]
    have key : ∀ x y : Nat, x = (N + 1 + 1) / 2 → y = (N + 1) / 2 →
        ([(n1, ⟨f1, caps1, x, c1, g1⟩), (n2, ⟨f2, caps2, y, c2, g2⟩)] : Members μ ρ) =
        [(n1, ⟨f1, caps1, (N + 1 + 1) / 2, c1, g1⟩),
         (n2, ⟨f2, caps2, (N + 1) / 2, c2, g2⟩)] := by
      intro x y hx hy
      rw [hx, hy]
    by_cases hpar : (N + 1) / 2 ≤ N / 2
    · rw [if_pos hpar]
      exact key _ _ (by omega) (by omega)
    · rw [if_neg hpar]
      exact key _ _ (by omega) (by omega)

/-- C2: (a) whenever `delegate_task` finds candidates, it delegates to the
candidate at the least index (registration order) among those with the minimal
`tasks_assigned` counter — every strictly earlier candidate has a strictly larger
counter — and increments that candidate's counter; (b) delegating `N` same-type
tasks to two equally capable workers with zero prior assignments gives the
first-registered worker `⌈N/2⌉` and the second `⌊N/2⌋`. -/
theorem claim_C2 (μ ρ : Type) :
    (∀ (m : Members μ ρ) (t : Task μ ρ) (chosen : String × AgentData μ ρ),
      chooseMinAssigned (find_capable m t.task_type) = some chosen →
      delegate_task m t =
        (bumpAssigned m chosen.1,
         { t with assigned_to := some chosen.1, status := .delegated }, true) ∧
      ∃ i, ∃ hi : i < (find_capable m t.task_type).length,
        (find_capable m t.task_type).get ⟨i, hi⟩ = chosen ∧
        (∀ j (hj : j < i),
          chosen.2.tasks_assigned <
            ((find_capable m t.task_type).get ⟨j, Nat.lt_trans hj hi⟩).2.tasks_assigned) ∧
        (∀ q ∈ find_capable m t.task_type,
          chosen.2.tasks_assigned ≤ q.2.tasks_assigned)) ∧
    (∀ (n1 n2 : String) (f1 f2 : μ → Except String ρ) (caps1 caps2 : List String)
      (c1 g1 c2 g2 : Nat) (ty : String) (meta : μ) (N : Nat),
      n1 ≠ n2 → caps1.contains ty = true → caps2.contains ty = true →
      delegateNTasks [(n1, ⟨f1, caps1, 0, c1, g1⟩), (n2, ⟨f2, caps2, 0, c2, g2⟩)]
        ty meta N =
      [(n1, ⟨f1, caps1, (N + 1) / 2, c1, g1⟩), (n2, ⟨f2, caps2, N / 2, c2, g2⟩)]) := by
  constructor
  · intro m t chosen hc
    exact ⟨by simp [delegate_task, hc], chooseMin_spec _ chosen hc⟩
  · intro n1 n2 f1 f2 caps1 caps2 c1 g1 c2 g2 ty meta N hn h1 h2
    exact twoTeam_split n1 n2 f1 f2 caps1 caps2 c1 g1 c2 g2 ty meta N hn h1 h2

def fwit : Unit → Except String Nat := fun _ => .ok 0

def membersC2 : Members Unit Nat :=
  [("a", ⟨fwit, ["x"], 5, 0, 0⟩), ("b", ⟨fwit, ["x"], 3, 0, 0⟩)]

def taskC2 : Task Unit Nat := mkTask "t" "d" "x" .medium none () 0

def chosenC2 : String × AgentData Unit Nat := ("b", ⟨fwit, ["x"], 3, 0, 0⟩)

/-- Witness for C2: with counters 5 and 3 the second-registered worker is chosen;
three tasks split 2 / 1 between two fresh equally capable workers. -/
theorem claim_C2_witness :
    (delegate_task membersC2 taskC2 =
      (bumpAssigned membersC2 "b",
       { taskC2 with assigned_to := some "b", status := .delegated }, true) ∧
      ∃ i, ∃ hi : i < (find_capable membersC2 taskC2.task_type).length,
        (find_capable membersC2 taskC2.task_type).get ⟨i, hi⟩ = chosenC2 ∧
        (∀ j (hj : j < i),
          chosenC2.2.tasks_assigned <
            ((find_capable membersC2 taskC2.task_type).get
              ⟨j, Nat.lt_trans hj hi⟩).2.tasks_assigned) ∧
        (∀ q ∈ find_capable membersC2 taskC2.task_type,
          chosenC2.2.tasks_assigned ≤ q.2.tasks_assigned)) ∧
    delegateNTasks [("a", ⟨fwit, ["x"], 0, 0, 0⟩), ("b", ⟨fwit, ["x"], 0, 0, 0⟩)]
      "x" () 3 =
    [("a", (⟨fwit, ["x"], 2, 0, 0⟩ : AgentData Unit Nat)), ("b", ⟨fwit, ["x"], 1, 0, 0⟩)] :=
  ⟨(claim_C2 Unit Nat).1 membersC2 taskC2 chosenC2 rfl,
   (claim_C2 Unit Nat).2 "a" "b" fwit fwit ["x"] ["x"] 0 0 0 0 "x" () 3
     (by decide) (by decide) (by decide)⟩

/-! ### Claim C9: counter mutation discipline -/

theorem mapVal_counter_mono {μ ρ : Type} (m : Members μ ρ) (n : String)
    (g : AgentData μ ρ → AgentData μ ρ)
    (hg1 : ∀ d, d.tasks_assigned ≤ (g d).tasks_assigned)
    (hg2 : ∀ d, d.tasks_completed ≤ (g d).tasks_completed)
    (hg3 : ∀ d, d.tasks_failed ≤ (g d).tasks_failed)
    (hg4 : ∀ d, (g d).capabilities = d.capabilities)
    (name : String) (d : AgentData μ ρ) (hd : dictGet m name = some d) :
    ∃ d', dictGet (mapVal m n g) name = some d' ∧
      d.tasks_assigned ≤ d'.tasks_assigned ∧
      d.tasks_completed ≤ d'.tasks_completed ∧
      d.tasks_failed ≤ d'.tasks_failed ∧
      d'.capabilities = d.capabilities := by
  by_cases h : name = n
  · subst h
    rw [dictGet_mapVal_self, hd]
    exact ⟨g d, rfl, hg1 d, hg2 d, hg3 d, hg4 d⟩
  · rw [dictGet_mapVal_ne m n g name h, hd]
    exact ⟨d, rfl, Nat.le_refl _, Nat.le_refl _, Nat.le_refl _, rfl⟩

/-- C9, amended: within one orchestrator session, the per-worker counters are
monotonically non-decreasing under `delegate_task` and `execute_task` (which never
touch the capability list either); `register_agent` with an already-registered
name, however, silently overwrites the entry, resetting all three counters to
zero. -/
theorem claim_C9 (μ ρ : Type) :
    (∀ (m : Members μ ρ) (t : Task μ ρ) (name : String) (d : AgentData μ ρ),
      dictGet m name = some d →
      ∃ d', dictGet (delegate_task m t).1 name = some d' ∧
        d.tasks_assigned ≤ d'.tasks_assigned ∧
        d.tasks_completed ≤ d'.tasks_completed ∧
        d.tasks_failed ≤ d'.tasks_failed ∧
        d'.capabilities = d.capabilities) ∧
    (∀ (m : Members μ ρ) (t : Task μ ρ) (now : Nat) (name : String) (d : AgentData μ ρ),
      dictGet m name = some d →
      ∃ d', dictGet (execute_task m t now).1 name = some d' ∧
        d.tasks_assigned ≤ d'.tasks_assigned ∧
        d.tasks_completed ≤ d'.tasks_completed ∧
        d.tasks_failed ≤ d'.tasks_failed ∧
        d'.capabilities = d.capabilities) ∧
    (∀ (m : Members μ ρ) (name : String) (agent_instance : μ → Except String ρ)
      (caps : List String),
      dictGet (register_agent m name agent_instance caps) name =
        some ⟨agent_instance, caps, 0, 0, 0⟩) := by
  refine ⟨?_, ?_, ?_⟩
  · intro m t name d hd
    cases hc : chooseMinAssigned (find_capable m t.task_type) with
    | none =>
      simp only [Agents.delegate_task, hc]
      exact ⟨d, hd, Nat.le_refl _, Nat.le_refl _, Nat.le_refl _, rfl⟩
    | some chosen =>
      simp only [Agents.delegate_task, hc]
      exact mapVal_counter_mono m chosen.1
        (fun d => { d with tasks_assigned := d.tasks_assigned + 1 })
        (fun x => Nat.le_succ _) (fun x => Nat.le_refl _) (fun x => Nat.le_refl _)
        (fun x => rfl) name d hd
  · intro m t now name d hd
    cases ha : t.assigned_to with
    | none =>
      simp only [Agents.execute_task, ha]
      exact ⟨d, hd, Nat.le_refl _, Nat.le_refl _, Nat.le_refl _, rfl⟩
    | some nm =>
      cases hdd : dictGet m nm with
      | none =>
        simp only [Agents.execute_task, ha, hdd]
        exact ⟨d, hd, Nat.le_refl _, Nat.le_refl _, Nat.le_refl _, rfl⟩
      | some agent_data =>
        cases hi : agent_data.inst t.metadata with
        | ok r =>
          simp only [Agents.execute_task, ha, hdd, hi]
          exact mapVal_counter_mono m nm
            (fun d => { d with tasks_completed := d.tasks_completed + 1 })
            (fun x => Nat.le_refl _) (fun x => Nat.le_succ _) (fun x => Nat.le_refl _)
            (fun x => rfl) name d hd
        | error e =>
          simp only [Agents.execute_task, ha, hdd, hi]
          exact mapVal_counter_mono m nm
            (fun d => { d with tasks_failed := d.tasks_failed + 1 })
            (fun x => Nat.le_refl _) (fun x => Nat.le_refl _) (fun x => Nat.le_succ _)
            (fun x => rfl) name d hd
  · intro m name agent_instance caps
    exact dictGet_dictSet_self m name _

def taskC9 : Task Unit Nat := mkTask "t" "d" "x" .medium none () 0

def dw : AgentData Unit Nat := ⟨fwit, ["x"], 0, 0, 0⟩

def m9a : Members Unit Nat := register_agent [] "w" fwit ["x"]

def m9b : Members Unit Nat := (delegate_task m9a taskC9).1

def m9c : Members Unit Nat := register_agent m9b "w" fwit ["x"]

/-- Counterexample to C9 as stated: after one delegation the worker's `assigned`
counter is 1; re-registering the same name resets it to 0, so the counter
decreases across an orchestrator operation sequence that reuses a name. -/
theorem claim_C9_counterexample :
    (dictGet m9b "w").map (fun d => d.tasks_assigned) = some 1 ∧
    (dictGet m9c "w").map (fun d => d.tasks_assigned) = some 0 ∧
    ¬ (1 : Nat) ≤ 0 :=
  ⟨rfl, rfl, by decide⟩

/-- Witness for C9 (amended): the monotonicity step and the overwrite-reset,
each at a concrete registry. -/
theorem claim_C9_witness :
    (∃ d', dictGet (delegate_task m9a taskC9).1 "w" = some d' ∧
      dw.tasks_assigned ≤ d'.tasks_assigned ∧
      dw.tasks_completed ≤ d'.tasks_completed ∧
      dw.tasks_failed ≤ d'.tasks_failed ∧
      d'.capabilities = dw.capabilities) ∧
    dictGet (register_agent ([] : Members Unit Nat) "w" fwit ["x"]) "w" = some dw :=
  ⟨(claim_C9 Unit Nat).1 m9a taskC9 "w" dw rfl,
   (claim_C9 Unit Nat).2.2 [] "w" fwit ["x"]⟩

/-! ### Python values, dict/truthiness semantics, substring search

Used by the bakery domain planner/aggregator (`bakery_leader.py`), whose contexts
and metadata are heterogeneous Python dicts. -/

/-- A Python value as it appears in bakery contexts/metadata. -/
inductive PyVal
  | none
  | bool (b : Bool)
  | int (n : Int)
  | str (s : String)
  | list (l : List PyVal)
  | dict (d : List (String × PyVal))

/-- A Python dict with string keys: the shape of `context` and task `metadata`. -/
abbrev Ctx := List (String × PyVal)

/-- Python truthiness of a value. -/
def pyTruthy : PyVal → Bool
  | .none => false
  | .bool b => b
  | .int n => !(n == 0)
  | .str s => !s.isEmpty
  | .list l => !l.isEmpty
  | .dict d => !d.isEmpty

/-- Iterating a value (`for x in v`); planners only ever iterate lists. -/
def pyItems : PyVal → List PyVal
  | .list l => l
  | _ => []

/-- The `context.get(k, dflt)`. -/
def ctxGet (c : Ctx) (k : String) (dflt : PyVal) : PyVal :=
  (dictGet c k).getD dflt

/-- The `v.get(k, dflt)` on a nested dict value. -/
def dGet (v : PyVal) (k : String) (dflt : PyVal) : PyVal :=
  match v with
  | .dict d => (dictGet d k).getD dflt
  | _ => dflt

/-- f-string rendering of a value; container rendering (never needed by a claim)
is a placeholder. -/
def pyRender : PyVal → String
  | .str s => s
  | .int n => toString n
  | .bool b => if b then "True" else "False"
  | .none => "None"
  | .list _ => "[...]"
  | .dict _ => "\x7b...\x7d"

/-- The `needle` is an initial segment of `haystack`. -/
def charsStart : List Char → List Char → Bool
  | [], _ => true
  | _ :: _, [] => false
  | c :: cs, d :: ds => c = d && charsStart cs ds

/-- The `needle` occurs contiguously somewhere in `haystack`. -/
def charsSub (needle : List Char) : List Char → Bool
  | [] => needle.isEmpty
  | d :: ds => charsStart needle (d :: ds) || charsSub needle ds

/-- Python's `needle in hay` on strings. -/
def strContains (hay needle : String) : Bool :=
  charsSub needle.data hay.data

/-- The `goal.lower()` (ASCII, which covers every trigger and goal in the domain). -/
def strLower (s : String) : String :=
  String.mk (s.data.map Char.toLower)

/-! ### Bakery planner (`BakeryLeader.plan_tasks` and helpers)

Each planning helper threads `self.task_counter` explicitly and returns the new
counter together with the emitted tasks.  All `datetime.now()` reads of one
planning call are the single `now` parameter. -/

namespace Bakery

/-- Bakery task records: metadata is a Python dict, results are Python values. -/
abbrev BTask := Task Ctx PyVal

/-- The `_plan_production_planning`. -/
def planProduction (c : Nat) (ctx : Ctx) (now : Nat) : Nat × List BTask :=
  let c1 := c + 1
  let t1 : BTask := mkTask ("task_" ++ toString c1) "Forecast product demand"
    "sales_forecasting" .high none
    [("historical_data", ctxGet ctx "sales_data" (.list [])),
     ("forecast_days", ctxGet ctx "forecast_days" (.int 7))] now
  let recipes := pyItems (ctxGet ctx "recipes" (.list []))
  let r := recipes.foldl (fun (acc : Nat × List BTask) recipe =>
    let n := acc.1 + 1
    (n, acc.2 ++ [mkTask ("task_" ++ toString n)
      ("Scale recipe: " ++ pyRender (dGet recipe "name" (.str "Unknown")))
      "recipe_scale" .medium none
      [("action", .str "scale"), ("recipe", recipe),
       ("servings", dGet recipe "target_servings" (.int 100))] now])) (c1, [])
  if pyTruthy (ctxGet ctx "generate_report" (.bool true)) then
    (r.1 + 1, t1 :: r.2 ++ [mkTask ("task_" ++ toString (r.1 + 1))
      "Generate production report" "production_report" .medium none
      [("products", ctxGet ctx "products" (.list []))] now])
  else (r.1, t1 :: r.2)

/-- The `_plan_custom_order`. -/
def planCustomOrder (c : Nat) (ctx : Ctx) (now : Nat) : Nat × List BTask :=
  let order := ctxGet ctx "order" (.dict [])
  let c1 := c + 1
  let t1 : BTask := mkTask ("task_" ++ toString c1) "Respond to custom order inquiry"
    "customer_support" .high none
    [("message", dGet order "message" (.str "")),
     ("customer_email", dGet order "customer_email" (.str ""))] now
  let s1 :=
    if pyTruthy (dGet order "recipe" .none) then
      (c1 + 1, [t1, mkTask ("task_" ++ toString (c1 + 1)) "Check allergens in recipe"
        "recipe_allergens" .high none
        [("action", .str "allergens"), ("recipe", dGet order "recipe" .none)] now])
    else (c1, [t1])
  if pyTruthy (dGet order "nutrition_info" (.bool false)) then
    (s1.1 + 1, s1.2 ++ [mkTask ("task_" ++ toString (s1.1 + 1))
      "Calculate nutrition information" "recipe_nutrition" .medium none
      [("action", .str "nutrition"), ("recipe", dGet order "recipe" (.dict []))] now])
  else s1

/-- The `_plan_quality_check`. -/
def planQuality (c : Nat) (ctx : Ctx) (now : Nat) : Nat × List BTask :=
  let products := pyItems (ctxGet ctx "products" (.list []))
  products.foldl (fun (acc : Nat × List BTask) product =>
    let n := acc.1 + 1
    (n, acc.2 ++ [mkTask ("task_" ++ toString n)
      ("Quality check: " ++ pyRender (dGet product "name" (.str "Unknown")))
      "quality_control" .high none
      [("product_type", dGet product "type" (.str "cake")),
       ("image_path", dGet product "image" (.str "")),
       ("description", dGet product "description" (.str ""))] now])) (c, [])

/-- The `task_type_map` of `_plan_recipe_management` (`dict.get` with default). -/
def mapRecipeAction : PyVal → String
  | .str "scale" => "recipe_scale"
  | .str "substitute" => "recipe_substitute"
  | .str "allergens" => "recipe_allergens"
  | .str "nutrition" => "recipe_nutrition"
  | .str "optimize" => "recipe_optimize"
  | _ => "recipe_scale"

/-- The `_plan_recipe_management`. -/
def planRecipeManagement (c : Nat) (ctx : Ctx) (now : Nat) : Nat × List BTask :=
  let action := ctxGet ctx "action" (.str "scale")
  let recipe := ctxGet ctx "recipe" (.dict [])
  (c + 1, [mkTask ("task_" ++ toString (c + 1))
    ("Recipe " ++ pyRender action ++ ": " ++ pyRender (dGet recipe "name" (.str "Unknown")))
    (mapRecipeAction action) .medium none
    ([("action", action), ("recipe", recipe)] ++
      ctx.filter fun p => !(p.1 == "action") && !(p.1 == "recipe")) now])

/-- The `_plan_demand_forecast`. -/
def planDemandForecast (c : Nat) (ctx : Ctx) (now : Nat) : Nat × List BTask :=
  (c + 1, [mkTask ("task_" ++ toString (c + 1)) "Forecast product demand"
    "sales_forecasting" .medium none
    [("historical_data", ctxGet ctx "sales_data" (.list [])),
     ("forecast_days", ctxGet ctx "forecast_days" (.int 30))] now])

/-- The `_plan_customer_service`: absent `inquiries` defaults to the whole context as
a single inquiry. -/
def planCustomerService (c : Nat) (ctx : Ctx) (now : Nat) : Nat × List BTask :=
  let inquiries :=
    match dictGet ctx "inquiries" with
    | some v => pyItems v
    | Option.none => [PyVal.dict ctx]
  inquiries.foldl (fun (acc : Nat × List BTask) inquiry =>
    let n := acc.1 + 1
    (n, acc.2 ++ [mkTask ("task_" ++ toString n)
      ("Handle inquiry: " ++ pyRender (dGet inquiry "subject" (.str "General")))
      "customer_support" .medium none
      [("message", dGet inquiry "message" (.str "")),
       ("customer_email", dGet inquiry "customer_email" (.str ""))] now])) (c, [])

/-- The `_plan_daily_operations`. -/
def planDailyOperations (c : Nat) (ctx : Ctx) (now : Nat) : Nat × List BTask :=
  let s1 :=
    if pyTruthy (ctxGet ctx "plan_production" (.bool true)) then
      planProduction c
        [("sales_data", ctxGet ctx "sales_data" (.list [])),
         ("recipes", ctxGet ctx "recipes" (.list [])),
         ("forecast_days", .int 1), ("generate_report", .bool false)] now
    else (c, [])
  let s2 :=
    if pyTruthy (ctxGet ctx "products_to_check" .none) then
      let q := planQuality s1.1 [("products", ctxGet ctx "products_to_check" .none)] now
      (q.1, s1.2 ++ q.2)
    else s1
  if pyTruthy (ctxGet ctx "inquiries" .none) then
    let q := planCustomerService s2.1 [("inquiries", ctxGet ctx "inquiries" .none)] now
    (q.1, s2.2 ++ q.2)
  else s2

/-- The `_plan_general_goal`: the fallback single generic task, metadata = raw context. -/
def planGeneralGoal (c : Nat) (goal : String) (ctx : Ctx) (now : Nat) :
    Nat × List BTask :=
  (c + 1, [mkTask ("task_" ++ toString (c + 1)) goal "general" .medium none ctx now])

/-- The `BakeryLeader.plan_tasks`: case-insensitive substring dispatch, first matching
trigger wins, fallback to the general task.  (`context or ""` is the identity on
dict-valued contexts and is dropped.) -/
def plan_tasks (c : Nat) (goal : String) (ctx : Ctx) (now : Nat) :
    Nat × List BTask :=
  let g := strLower goal
  if strContains g "production" || strContains g "plan" then planProduction c ctx now
  else if strContains g "custom" || strContains g "order" then planCustomOrder c ctx now
  else if strContains g "quality" || strContains g "inspection" then planQuality c ctx now
  else if strContains g "recipe" then planRecipeManagement c ctx now
  else if strContains g "forecast" || strContains g "demand" then planDemandForecast c ctx now
  else if strContains g "customer" || strContains g "inquiry" then planCustomerService c ctx now
  else if strContains g "daily" then planDailyOperations c ctx now
  else planGeneralGoal c goal ctx now

/-! ### Bakery aggregator (`BakeryLeader.aggregate_results`) -/

/-- The `summary` sub-dict of the report. -/
structure BSummary where
  total_tasks : Nat
  successful : Nat
  failed : Nat
  success_rate : String

/-- One entry of `results[task_type]`. -/
structure BResultEntry where
  task_id : String
  description : String
  assigned_to : Option String
  result : Option PyVal

/-- One entry of `failures`. -/
structure BFailureEntry where
  task_id : String
  description : String
  error : Option String

/-- The `operational_metrics` counters. -/
structure BMetrics where
  recipes_managed : Nat
  quality_checks_passed : Nat
  customer_inquiries_handled : Nat
  production_plans_created : Nat
  forecasts_generated : Nat

/-- The full report dict. -/
structure BReport where
  team : String
  bakery : String
  summary : BSummary
  results : List (String × List BResultEntry)
  failures : List BFailureEntry
  operational_metrics : BMetrics

/-- Round `n / d` to the nearest integer, ties to even: the rounding used by
Python's fixed-point float formatting, modelled on the exact rational. -/
def roundHalfEven (n d : Nat) : Nat :=
  if d = 0 then 0
  else
    let q := n / d
    let r := n % d
    if 2 * r < d then q
    else if d < 2 * r then q + 1
    else if q % 2 = 0 then q else q + 1

/-- The `f"{s / t * 100:.1f}%"` on the exact rational `s / t`. -/
def fmtPercent (s t : Nat) : String :=
  let tenths := roundHalfEven (s * 1000) t
  toString (tenths / 10) ++ "." ++ toString (tenths % 10) ++ "%"

/-- Appending a successful task under its type key, preserving first-seen key
order (Python dict insertion order). -/
def addResult (acc : List (String × List BResultEntry)) (ty : String)
    (e : BResultEntry) : List (String × List BResultEntry) :=
  match dictGet acc ty with
  | Option.none => acc ++ [(ty, [e])]
  | some l => dictSet acc ty (l ++ [e])

/-- The `_calculate_operational_metrics` if/elif chain for one task type. -/
def metricsStep (m : BMetrics) (ty : String) : BMetrics :=
  if strContains ty "recipe" then
    { m with recipes_managed := m.recipes_managed + 1 }
  else if ty = "quality_control" then
    { m with quality_checks_passed := m.quality_checks_passed + 1 }
  else if ty = "customer_support" then
    { m with customer_inquiries_handled := m.customer_inquiries_handled + 1 }
  else if ty = "production_report" then
    { m with production_plans_created := m.production_plans_created + 1 }
  else if ty = "sales_forecasting" then
    { m with forecasts_generated := m.forecasts_generated + 1 }
  else m

/-- The `_calculate_operational_metrics` over the successful tasks. -/
def calcMetrics (tasks : List BTask) : BMetrics :=
  tasks.foldl (fun m t => metricsStep m t.task_type) ⟨0, 0, 0, 0, 0⟩

/-- The `BakeryLeader.aggregate_results`. -/
def aggregate_results (team_name bakery_name : String) (tasks : List BTask) :
    BReport :=
  let successful_tasks := tasks.filter fun t => decide (t.status = TaskStatus.completed)
  let failed_tasks := tasks.filter fun t => decide (t.status = TaskStatus.failed)
  { team := team_name
    bakery := bakery_name
    summary :=
      { total_tasks := tasks.length
        successful := successful_tasks.length
        failed := failed_tasks.length
        success_rate :=
          if tasks.isEmpty then "0%"
          else fmtPercent successful_tasks.length tasks.length }
    results := successful_tasks.foldl
      (fun acc t => addResult acc t.task_type
        ⟨t.task_id, t.description, t.assigned_to, t.result⟩) []
    failures := failed_tasks.map fun t => ⟨t.task_id, t.description, t.error⟩
    operational_metrics := calcMetrics successful_tasks }

/-! ### Claims C4, C5, C6 -/

/-- Shared computation: a goal matching no trigger dispatches to the general
fallback. -/
theorem plan_tasks_unmatched (c : Nat) (goal : String) (ctx : Ctx) (now : Nat)
    (h1 : strContains (strLower goal) "production" = false)
    (h2 : strContains (strLower goal) "plan" = false)
    (h3 : strContains (strLower goal) "custom" = false)
    (h4 : strContains (strLower goal) "order" = false)
    (h5 : strContains (strLower goal) "quality" = false)
    (h6 : strContains (strLower goal) "inspection" = false)
    (h7 : strContains (strLower goal) "recipe" = false)
    (h8 : strContains (strLower goal) "forecast" = false)
    (h9 : strContains (strLower goal) "demand" = false)
    (h10 : strContains (strLower goal) "customer" = false)
    (h11 : strContains (strLower goal) "inquiry" = false)
    (h12 : strContains (strLower goal) "daily" = false) :
    plan_tasks c goal ctx now =
      (c + 1, [mkTask ("task_" ++ toString (c + 1)) goal "general" .medium none ctx now]) := by
  simp [plan_tasks, planGeneralGoal, h1, h2, h3, h4, h5, h6, h7, h8, h9, h10, h11, h12]

/-- C6: for a goal matching none of the triggers (case-insensitively), `plan_tasks`
returns exactly one task, of type `"general"`, whose metadata is the input context
unchanged. -/
theorem claim_C6 (c : Nat) (goal : String) (ctx : Ctx) (now : Nat)
    (h1 : strContains (strLower goal) "production" = false)
    (h2 : strContains (strLower goal) "plan" = false)
    (h3 : strContains (strLower goal) "custom" = false)
    (h4 : strContains (strLower goal) "order" = false)
    (h5 : strContains (strLower goal) "quality" = false)
    (h6 : strContains (strLower goal) "inspection" = false)
    (h7 : strContains (strLower goal) "recipe" = false)
    (h8 : strContains (strLower goal) "forecast" = false)
    (h9 : strContains (strLower goal) "demand" = false)
    (h10 : strContains (strLower goal) "customer" = false)
    (h11 : strContains (strLower goal) "inquiry" = false)
    (h12 : strContains (strLower goal) "daily" = false) :
    ∃ t : BTask, (plan_tasks c goal ctx now).2 = [t] ∧
      t.task_type = "general" ∧ t.metadata = ctx := by
  rw [plan_tasks_unmatched c goal ctx now h1 h2 h3 h4 h5 h6 h7 h8 h9 h10 h11 h12]
  exact ⟨_, rfl, rfl, rfl⟩

/-- Witness for C6 at the unmatched goal `"hello"`. -/
theorem claim_C6_witness :
    ∃ t : BTask, (plan_tasks 0 "hello" [("k", .int 1)] 5).2 = [t] ∧
      t.task_type = "general" ∧ t.metadata = [("k", .int 1)] :=
  claim_C6 0 "hello" [("k", .int 1)] 5 rfl rfl rfl rfl rfl rfl rfl rfl rfl rfl rfl rfl

/-- C4 fails as stated: the nonempty goal `"quality"` with an empty context
matches the quality trigger and yields an empty task list (no fallback applies). -/
theorem claim_C4_counterexample :
    ("quality" : String) ≠ "" ∧ (plan_tasks 0 "quality" [] 0).2 = [] :=
  ⟨by decide, rfl⟩

/-- C4, amended: `plan_tasks` is total (never raises), and for every nonempty
goal matching none of the triggers it returns a non-empty list — the single
general fallback task.  A trigger-matching goal may legitimately return an empty
list (for example a quality check with no products). -/
theorem claim_C4 (c : Nat) (goal : String) (ctx : Ctx) (now : Nat)
    (hne : goal ≠ "")
    (h1 : strContains (strLower goal) "production" = false)
    (h2 : strContains (strLower goal) "plan" = false)
    (h3 : strContains (strLower goal) "custom" = false)
    (h4 : strContains (strLower goal) "order" = false)
    (h5 : strContains (strLower goal) "quality" = false)
    (h6 : strContains (strLower goal) "inspection" = false)
    (h7 : strContains (strLower goal) "recipe" = false)
    (h8 : strContains (strLower goal) "forecast" = false)
    (h9 : strContains (strLower goal) "demand" = false)
    (h10 : strContains (strLower goal) "customer" = false)
    (h11 : strContains (strLower goal) "inquiry" = false)
    (h12 : strContains (strLower goal) "daily" = false) :
    (plan_tasks c goal ctx now).2.length = 1 ∧ (plan_tasks c goal ctx now).2 ≠ [] := by
  rw [plan_tasks_unmatched c goal ctx now h1 h2 h3 h4 h5 h6 h7 h8 h9 h10 h11 h12]
  exact ⟨rfl, by simp⟩

/-- Witness for C4 (amended) at the unmatched goal `"bonjour"`. -/
theorem claim_C4_witness :
    (plan_tasks 0 "bonjour" [] 0).2.length = 1 ∧ (plan_tasks 0 "bonjour" [] 0).2 ≠ [] :=
  claim_C4 0 "bonjour" [] 0 (by decide) rfl rfl rfl rfl rfl rfl rfl rfl rfl rfl rfl rfl

/-- Counting lemma: when every task is terminal, the COMPLETED and FAILED counts
partition the list. -/
theorem terminal_partition (tasks : List BTask)
    (hall : ∀ t ∈ tasks, t.status = TaskStatus.completed ∨ t.status = TaskStatus.failed) :
    (tasks.filter fun t => decide (t.status = TaskStatus.completed)).length +
      (tasks.filter fun t => decide (t.status = TaskStatus.failed)).length =
      tasks.length := by
  induction tasks with
  | nil => rfl
  | cons t rest ih =>
    have hrest := ih fun x hx => hall x (List.mem_cons.mpr (Or.inr hx))
    rcases hall t (List.mem_cons_self t rest) with h | h <;>
      simp [List.filter_cons, h] <;> omega

/-- C5: the aggregate summary counts total/COMPLETED/FAILED tasks, the two counts
partition any all-terminal list, the rate string is `"0%"` on an empty list and
`"75.0%"` for 3 successes out of 4 tasks (one fractional digit). -/
theorem claim_C5 (team_name bakery_name : String) (tasks : List BTask) :
    (aggregate_results team_name bakery_name tasks).summary.total_tasks = tasks.length ∧
    (aggregate_results team_name bakery_name tasks).summary.successful =
      (tasks.filter fun t => decide (t.status = TaskStatus.completed)).length ∧
    (aggregate_results team_name bakery_name tasks).summary.failed =
      (tasks.filter fun t => decide (t.status = TaskStatus.failed)).length ∧
    ((∀ t ∈ tasks, t.status = TaskStatus.completed ∨ t.status = TaskStatus.failed) →
      (aggregate_results team_name bakery_name tasks).summary.successful +
        (aggregate_results team_name bakery_name tasks).summary.failed = tasks.length) ∧
    (tasks = [] →
      (aggregate_results team_name bakery_name tasks).summary.success_rate = "0%") ∧
    (tasks.length = 4 →
      (tasks.filter fun t => decide (t.status = TaskStatus.completed)).length = 3 →
      (aggregate_results team_name bakery_name tasks).summary.success_rate = "75.0%") := by
  refine ⟨rfl, rfl, rfl, terminal_partition tasks, ?_, ?_⟩
  · rintro rfl
    rfl
  · intro h4 h3
    have hne : tasks.isEmpty = false := by
      cases tasks with
      | nil => simp at h4
      | cons t rest => rfl
    show (if tasks.isEmpty then "0%"
      else fmtPercent (tasks.filter fun t => decide (t.status = TaskStatus.completed)).length
        tasks.length) = "75.0%"
    rw [hne, h3, h4]
    rfl

def taskWithStatus (i : Nat) (st : TaskStatus) : BTask :=
  { (mkTask ("t" ++ toString i) "d" "x" .medium none [] 0 : BTask) with status := st }

def tasksC5 : List BTask :=
  [taskWithStatus 1 .completed, taskWithStatus 2 .completed,
   taskWithStatus 3 .completed, taskWithStatus 4 .failed]

/-- Witness for C5: a concrete 3-of-4 batch and the empty batch. -/
theorem claim_C5_witness :
    (aggregate_results "Bakery Operations Team" "Artisan Bakery" tasksC5).summary.success_rate =
      "75.0%" ∧
    (aggregate_results "Bakery Operations Team" "Artisan Bakery" []).summary.success_rate =
      "0%" ∧
    (aggregate_results "Bakery Operations Team" "Artisan Bakery" tasksC5).summary.successful +
      (aggregate_results "Bakery Operations Team" "Artisan Bakery" tasksC5).summary.failed = 4 :=
  ⟨(claim_C5 "Bakery Operations Team" "Artisan Bakery" tasksC5).2.2.2.2.2 rfl rfl,
   (claim_C5 "Bakery Operations Team" "Artisan Bakery" []).2.2.2.2.1 rfl,
   (claim_C5 "Bakery Operations Team" "Artisan Bakery" tasksC5).2.2.2.1
     (by intro t ht; fin_cases ht <;> simp [taskWithStatus])⟩

end Bakery

/-! ### Recurring task engine (`task_scheduler.py`)

`Task.func/args/kwargs` are modelled as one closure `Unit → Except String ρ`;
timestamps are naturals; the scheduler's `state` dict is a structure. -/

namespace Sched

/-- The `task_scheduler.Task.__init__`. -/
structure STask (ρ : Type) where
  name : String
  func : Unit → Except String ρ
  schedule : Option String
  last_run : Option Nat
  next_run : Option Nat
  runs : Nat
  enabled : Bool

/-- The `Task.execute`: on success stamp `last_run`, bump `runs`, return the result;
on a raised error wrap it in `Exception(f"Task {name} failed: {err}")` and
re-raise, leaving the task untouched. -/
def taskExecute {ρ : Type} (t : STask ρ) (now : Nat) : STask ρ × Except String ρ :=
  match t.func () with
  | .ok r => ({ t with last_run := some now, runs := t.runs + 1 }, .ok r)
  | .error e => (t, .error ("Task " ++ t.name ++ " failed: " ++ e))

/-- One history entry (`'runs'` on success, `'error'` on failure). -/
structure HistEntry where
  task : String
  timestamp : Nat
  status : String
  runs : Option Nat
  error : Option String

/-- The scheduler's `state` dict (the `thread` handle is outside the model). -/
structure SchedState (ρ : Type) where
  tasks : List (String × STask ρ)
  running : Bool
  history : List HistEntry

/-- Python truthiness of the optional interval arguments. -/
def natTruthy : Option Nat → Bool
  | some n => !(n == 0)
  | Option.none => false

def optNat : Option Nat → Nat
  | some n => n
  | Option.none => 0

/-- The `TaskSchedulerAgent.add_task`: build the schedule string and the initial
`next_run`, then insert (or overwrite) the task. -/
def add_task {ρ : Type} (st : SchedState ρ) (name : String)
    (func : Unit → Except String ρ)
    (interval_seconds interval_minutes interval_hours : Option Nat)
    (run_immediately : Bool) (now : Nat) : SchedState ρ :=
  let schedule : Option String :=
    if natTruthy interval_seconds then
      some ("every_" ++ toString (optNat interval_seconds) ++ "s")
    else if natTruthy interval_minutes then
      some ("every_" ++ toString (optNat interval_minutes) ++ "m")
    else if natTruthy interval_hours then
      some ("every_" ++ toString (optNat interval_hours) ++ "h")
    else Option.none
  let nr0 : Option Nat :=
    if natTruthy interval_seconds then some (now + optNat interval_seconds)
    else if natTruthy interval_minutes then some (now + optNat interval_minutes * 60)
    else if natTruthy interval_hours then some (now + optNat interval_hours * 3600)
    else Option.none
  let nr := if run_immediately then some now else nr0
  { st with
    tasks := dictSet st.tasks name
      { name := name, func := func, schedule := schedule, last_run := Option.none
        next_run := nr, runs := 0, enabled := true } }

/-- The `TaskSchedulerAgent.remove_task` (no-op when absent). -/
def remove_task {ρ : Type} (st : SchedState ρ) (name : String) : SchedState ρ :=
  { st with tasks := st.tasks.filter fun p => !(p.1 == name) }

/-- The `pre` is an initial segment of `s`. -/
def strStarts (s pre : String) : Bool :=
  charsStart pre.data s.data

/-- The `.rstrip('smh')`. -/
def rstripSMH (s : String) : String :=
  String.mk ((s.data.reverse.dropWhile fun c => c == 's' || c == 'm' || c == 'h').reverse)

/-- The `.replace('every_', '')` on schedule strings: they carry exactly one
occurrence of `every_`, as a prefix, so dropping the prefix is equivalent. -/
def dropEveryTag (s : String) : String :=
  if strStarts s "every_" then String.mk (s.data.drop 6) else s

/-- The `int(parts)` on the digit strings the scheduler produces (sign and
whitespace forms never arise). -/
def strToNat (s : String) : Option Nat :=
  match s.data with
  | [] => Option.none
  | ds =>
    ds.foldl (fun acc c =>
      match acc with
      | Option.none => Option.none
      | some n => if c.isDigit then some (n * 10 + (c.toNat - 48)) else Option.none)
      (some 0)

/-- The `schedule[-1]`. -/
def lastChar (s : String) : Char :=
  (s.data.getLast?).getD ' '

/-- The `TaskSchedulerAgent._update_next_run`: parse the schedule string and advance
`next_run` from the current time; an unparsable interval raises (`int(...)`). -/
def update_next_run {ρ : Type} (t : STask ρ) (now : Nat) : Except String (STask ρ) :=
  match t.schedule with
  | Option.none => .ok { t with next_run := Option.none }
  | some s =>
    if strStarts s "every_" then
      let parts := rstripSMH (dropEveryTag s)
      match strToNat parts with
      | Option.none => .error ("invalid literal for int() with base 10: " ++ parts)
      | some interval =>
        let unit := lastChar s
        if unit == 's' then .ok { t with next_run := some (now + interval) }
        else if unit == 'm' then .ok { t with next_run := some (now + interval * 60) }
        else if unit == 'h' then .ok { t with next_run := some (now + interval * 3600) }
        else .ok t
    else .ok t

/-- The `TaskSchedulerAgent._execute_task`: run the task; on success reschedule and
append a success entry; on a raised error append a failure entry with the
stringified error and re-raise. -/
def execute_one {ρ : Type} (st : SchedState ρ) (t : STask ρ) (now : Nat) :
    SchedState ρ × Except String ρ :=
  match taskExecute t now with
  | (t1, .ok r) =>
    match update_next_run t1 now with
    | .ok t2 =>
      ({ st with tasks := dictSet st.tasks t1.name t2
                 history := st.history ++
                   [{ task := t1.name, timestamp := now, status := "success"
                      runs := some t2.runs, error := Option.none }] }, .ok r)
    | .error e =>
      ({ st with tasks := dictSet st.tasks t1.name t1
                 history := st.history ++
                   [{ task := t1.name, timestamp := now, status := "failed"
                      runs := Option.none, error := some e }] }, .error e)
  | (t1, .error e) =>
    ({ st with tasks := dictSet st.tasks t1.name t1
               history := st.history ++
                 [{ task := t1.name, timestamp := now, status := "failed"
                    runs := Option.none, error := some e }] }, .error e)

/-- The `task.enabled and task.next_run and task.next_run <= now`. -/
def isDue {ρ : Type} (t : STask ρ) (now : Nat) : Bool :=
  t.enabled && (match t.next_run with
    | some nr => decide (nr ≤ now)
    | Option.none => false)

/-- The `execute()` due-task loop over a key snapshot, threading the state; a
re-raised task failure aborts the remaining iterations and propagates. -/
def run_due_aux {ρ : Type} (now : Nat) :
    SchedState ρ → List String → SchedState ρ × Except String (List (String × ρ))
  | st, [] => (st, .ok [])
  | st, n :: rest =>
    match dictGet st.tasks n with
    | Option.none => run_due_aux now st rest
    | some t =>
      if isDue t now then
        let e := execute_one st t now
        match e.2 with
        | .ok r =>
          let rec2 := run_due_aux now e.1 rest
          match rec2.2 with
          | .ok results => (rec2.1, .ok ((n, r) :: results))
          | .error err => (rec2.1, .error err)
        | .error err => (e.1, .error err)
      else run_due_aux now st rest

/-- The `TaskSchedulerAgent.execute()` with `task_name=None`. -/
def run_due {ρ : Type} (st : SchedState ρ) (now : Nat) :
    SchedState ρ × Except String (List (String × ρ)) :=
  run_due_aux now st (st.tasks.map fun p => p.1)

/-- The `TaskSchedulerAgent.execute(task_name)`. -/
def execute_by_name {ρ : Type} (st : SchedState ρ) (n : String) (now : Nat) :
    SchedState ρ × Except String ρ :=
  match dictGet st.tasks n with
  | Option.none => (st, .error ("Task " ++ n ++ " not found"))
  | some t => execute_one st t now

/-- One iteration of `_run_loop`: when running, `execute()` inside `try/except`
(the error is logged and dropped), then sleep one tick. -/
def run_loop_tick {ρ : Type} (st : SchedState ρ) (now : Nat) : SchedState ρ :=
  if st.running then (run_due st now).1 else st

/-! ### Scheduler lemmas and claims -/

theorem execute_one_running {ρ : Type} (st : SchedState ρ) (t : STask ρ) (now : Nat) :
    (execute_one st t now).1.running = st.running := by
  cases hf : t.func () with
  | ok r =>
    cases hu : update_next_run { t with last_run := some now, runs := t.runs + 1 } now with
    | ok t2 => simp [execute_one, taskExecute, hf, hu]
    | error e => simp [execute_one, taskExecute, hf, hu]
  | error e => simp [execute_one, taskExecute, hf]

theorem run_due_aux_running {ρ : Type} (now : Nat) (names : List String) :
    ∀ st : SchedState ρ, ((run_due_aux now st names).1).running = st.running := by
  induction names with
  | nil => intro st; rfl
  | cons n rest ih =>
    intro st
    cases hd : dictGet st.tasks n with
    | none =>
      simp only [run_due_aux, hd]
      exact ih st
    | some t =>
      simp only [run_due_aux, hd]
      by_cases hdue : isDue t now
      · rw [if_pos hdue]
        cases he : (execute_one st t now).2 with
        | ok r =>
          cases hr : (run_due_aux now (execute_one st t now).1 rest).2 with
          | ok results =>
            simp only [he, hr]
            rw [ih (execute_one st t now).1, execute_one_running]
          | error err =>
            simp only [he, hr]
            rw [ih (execute_one st t now).1, execute_one_running]
        | error err =>
          simp only [he]
          exact execute_one_running st t now
      · rw [if_neg hdue]
        exact ih st

theorem run_due_running {ρ : Type} (st : SchedState ρ) (now : Nat) :
    ((run_due st now).1).running = st.running := by
  unfold run_due
  exact run_due_aux_running now _ st

/-- The failure path of `_execute_task`, in full. -/
theorem execute_one_failure {ρ : Type} (st : SchedState ρ) (t : STask ρ)
    (now : Nat) (e : String) (hf : t.func () = .error e) :
    execute_one st t now =
      ({ st with tasks := dictSet st.tasks t.name t
                 history := st.history ++
                   [{ task := t.name, timestamp := now, status := "failed"
                      runs := Option.none
                      error := some ("Task " ++ t.name ++ " failed: " ++ e) }] },
       .error ("Task " ++ t.name ++ " failed: " ++ e)) := by
  simp [execute_one, taskExecute, hf]

/-- The `run_due` on a one-job table whose due job's action raises: the failure entry
is appended and the wrapped exception propagates out of `execute()`. -/
theorem run_due_singleton_fail {ρ : Type} (st : SchedState ρ) (tk : STask ρ)
    (now : Nat) (e : String) (hst : st.tasks = [(tk.name, tk)])
    (hdue : isDue tk now = true) (hf : tk.func () = .error e) :
    run_due st now =
      ({ st with history := st.history ++
          [{ task := tk.name, timestamp := now, status := "failed"
             runs := Option.none
             error := some ("Task " ++ tk.name ++ " failed: " ++ e) }] },
       .error ("Task " ++ tk.name ++ " failed: " ++ e)) := by
  have hget : dictGet st.tasks tk.name = some tk := by rw [hst]; simp [dictGet]
  have hset : dictSet st.tasks tk.name tk = st.tasks := dictSet_self _ _ _ hget
  unfold run_due
  rw [hst]
  simp only [List.map_cons, List.map_nil, run_due_aux, hget, hdue, if_true,
    execute_one_failure st tk now e hf, hset]
  rw [hst]

/-- C8: a raising scheduler job (a) gets a failure history entry whose error is
the stringified (wrapped) exception and re-raises it out of `_execute_task`;
(b) the re-raised error propagates out of `run_due` to the poll loop; and (c) a
poll-loop tick catches it and leaves the `running` flag intact, so the loop
continues. -/
theorem claim_C8 (ρ : Type) :
    (∀ (st : SchedState ρ) (tk : STask ρ) (now : Nat) (e : String),
      tk.func () = .error e →
      execute_one st tk now =
        ({ st with tasks := dictSet st.tasks tk.name tk
                   history := st.history ++
                     [{ task := tk.name, timestamp := now, status := "failed"
                        runs := Option.none
                        error := some ("Task " ++ tk.name ++ " failed: " ++ e) }] },
         .error ("Task " ++ tk.name ++ " failed: " ++ e))) ∧
    (∀ (st : SchedState ρ) (tk : STask ρ) (now : Nat) (e : String),
      st.tasks = [(tk.name, tk)] → isDue tk now = true → tk.func () = .error e →
      run_due st now =
        ({ st with history := st.history ++
            [{ task := tk.name, timestamp := now, status := "failed"
               runs := Option.none
               error := some ("Task " ++ tk.name ++ " failed: " ++ e) }] },
         .error ("Task " ++ tk.name ++ " failed: " ++ e))) ∧
    (∀ (st : SchedState ρ) (now : Nat), (run_loop_tick st now).running = st.running) := by
  refine ⟨execute_one_failure, run_due_singleton_fail, ?_⟩
  intro st now
  by_cases hr : st.running
  · simp only [run_loop_tick, hr, if_true]
    rw [run_due_running, hr]
  · simp [run_loop_tick, hr]

/-- C7: `add_task(name, func, interval_seconds=5, run_immediately=True)` stores
the job with `next_run = now` (so `next_run ≤` every later observation of the
clock); a subsequent `run_due` at time `t ≥ now` in which the action returns
normally executes it once, leaving `run_count = 1`, `last_run = t` and
`next_run = t + 5` (fixed-interval rescheduling from completion time). -/
theorem claim_C7 {ρ : Type} (hist : List HistEntry) (running : Bool)
    (name : String) (func : Unit → Except String ρ) (v : ρ) (now t : Nat)
    (hfunc : func () = .ok v) (hnow : now ≤ t) :
    (∃ tk : STask ρ,
      dictGet (add_task ⟨[], running, hist⟩ name func (some 5) Option.none
        Option.none true now).tasks name = some tk ∧
      tk.next_run = some now ∧ tk.runs = 0) ∧
    (∃ st2 : SchedState ρ, ∃ tk2 : STask ρ,
      run_due (add_task ⟨[], running, hist⟩ name func (some 5) Option.none
        Option.none true now) t = (st2, .ok [(name, v)]) ∧
      dictGet st2.tasks name = some tk2 ∧
      tk2.runs = 1 ∧ tk2.last_run = some t ∧ tk2.next_run = some (t + 5)) := by
  have hst1 : add_task (⟨[], running, hist⟩ : SchedState ρ) name func (some 5)
      Option.none Option.none true now =
      ⟨[(name, ⟨name, func, some "every_5s", Option.none, some now, 0, true⟩)],
       running, hist⟩ := rfl
  rw [hst1]
  constructor
  · exact ⟨⟨name, func, some "every_5s", Option.none, some now, 0, true⟩,
      by simp [dictGet], rfl, rfl⟩
  · have hget : dictGet
        [(name, (⟨name, func, some "every_5s", Option.none, some now, 0, true⟩ : STask ρ))]
        name = some ⟨name, func, some "every_5s", Option.none, some now, 0, true⟩ := by
      simp [dictGet]
    have hdue : isDue (⟨name, func, some "every_5s", Option.none, some now, 0, true⟩ : STask ρ) t
        = true := by
      simp [isDue, hnow]
    have hupd : update_next_run
        (⟨name, func, some "every_5s", some t, some now, 1, true⟩ : STask ρ) t =
        .ok ⟨name, func, some "every_5s", some t, some (t + 5), 1, true⟩ := rfl
    have hexec : execute_one
        (⟨[(name, (⟨name, func, some "every_5s", Option.none, some now, 0, true⟩ : STask ρ))],
          running, hist⟩ : SchedState ρ)
        ⟨name, func, some "every_5s", Option.none, some now, 0, true⟩ t =
        (⟨[(name, ⟨name, func, some "every_5s", some t, some (t + 5), 1, true⟩)], running,
          hist ++ [⟨name, t, "success", some 1, Option.none⟩]⟩, .ok v) := by
      unfold execute_one taskExecute
      simp only [hfunc, hupd, dictSet]
      simp [dictSet]
    refine ⟨⟨[(name, ⟨name, func, some "every_5s", some t, some (t + 5), 1, true⟩)],
        running, hist ++ [⟨name, t, "success", some 1, Option.none⟩]⟩,
      ⟨name, func, some "every_5s", some t, some (t + 5), 1, true⟩, ?_, ?_, rfl, rfl, rfl⟩
    · unfold run_due
      simp only [List.map_cons, List.map_nil, run_due_aux, hget, hdue, if_true, hexec]
    · simp [dictGet]

/-- Witness for C7 with a concrete job added at time 10 and run at time 12. -/
theorem claim_C7_witness :
    (∃ tk : STask Nat,
      dictGet (add_task ⟨[], false, []⟩ "job" (fun _ => .ok 42) (some 5) Option.none
        Option.none true 10).tasks "job" = some tk ∧
      tk.next_run = some 10 ∧ tk.runs = 0) ∧
    (∃ st2 : SchedState Nat, ∃ tk2 : STask Nat,
      run_due (add_task ⟨[], false, []⟩ "job" (fun _ => .ok 42) (some 5) Option.none
        Option.none true 10) 12 = (st2, .ok [("job", 42)]) ∧
      dictGet st2.tasks "job" = some tk2 ∧
      tk2.runs = 1 ∧ tk2.last_run = some 12 ∧ tk2.next_run = some (12 + 5)) :=
  claim_C7 [] false "job" (fun _ => .ok 42) 42 10 12 rfl (by decide)

def tkC8 : STask Nat :=
  { name := "j", func := fun _ => .error "boom", schedule := some "every_5s"
    last_run := Option.none, next_run := some 0, runs := 0, enabled := true }

def stC8 : SchedState Nat := ⟨[("j", tkC8)], true, []⟩

/-- Witness for C8 on a concrete one-job scheduler. -/
theorem claim_C8_witness :
    execute_one stC8 tkC8 3 =
      ({ stC8 with tasks := dictSet stC8.tasks tkC8.name tkC8
                   history := stC8.history ++
                     [{ task := tkC8.name, timestamp := 3, status := "failed"
                        runs := Option.none
                        error := some ("Task " ++ tkC8.name ++ " failed: " ++ "boom") }] },
       .error ("Task " ++ tkC8.name ++ " failed: " ++ "boom")) ∧
    run_due stC8 3 =
      ({ stC8 with history := stC8.history ++
          [{ task := tkC8.name, timestamp := 3, status := "failed"
             runs := Option.none
             error := some ("Task " ++ tkC8.name ++ " failed: " ++ "boom") }] },
       .error ("Task " ++ tkC8.name ++ " failed: " ++ "boom")) ∧
    (run_loop_tick stC8 3).running = stC8.running :=
  ⟨(claim_C8 Nat).1 stC8 tkC8 3 "boom" rfl,
   (claim_C8 Nat).2.1 stC8 tkC8 3 "boom" rfl rfl rfl,
   (claim_C8 Nat).2.2 stC8 3⟩

/-- Dueness is stable under the passage of time. -/
theorem isDue_mono {ρ : Type} (tk : STask ρ) (now t2 : Nat)
    (hdue : isDue tk now = true) (hle : now ≤ t2) : isDue tk t2 = true := by
  unfold isDue at hdue ⊢
  cases hnr : tk.next_run with
  | none =>
    rw [hnr] at hdue
    simp at hdue
  | some nr =>
    rw [hnr] at hdue
    simp only [Bool.and_eq_true, decide_eq_true_eq] at hdue ⊢
    exact ⟨hdue.1, Nat.le_trans hdue.2 hle⟩

/-- C10: when a job's action raises, (a) `_execute_task` leaves the job table —
hence the job's `next_run`, `last_run` and `runs` — unchanged and only appends
the failure history entry; (b) a due job stays due at any later tick; (c) hence
on a one-job scheduler the next poll tick re-executes the still-due job,
appending a second failure entry, instead of rescheduling it one interval later. -/
theorem claim_C10 (ρ : Type) :
    (∀ (st : SchedState ρ) (tk : STask ρ) (now : Nat) (e : String),
      dictGet st.tasks tk.name = some tk → tk.func () = .error e →
      execute_one st tk now =
        ({ st with history := st.history ++
            [{ task := tk.name, timestamp := now, status := "failed"
               runs := Option.none
               error := some ("Task " ++ tk.name ++ " failed: " ++ e) }] },
         .error ("Task " ++ tk.name ++ " failed: " ++ e))) ∧
    (∀ (tk : STask ρ) (now t2 : Nat),
      isDue tk now = true → now ≤ t2 → isDue tk t2 = true) ∧
    (∀ (st : SchedState ρ) (tk : STask ρ) (now t2 : Nat) (e : String),
      st.tasks = [(tk.name, tk)] → isDue tk now = true → now ≤ t2 →
      tk.func () = .error e →
      ((run_due (run_due st now).1 t2).1).tasks = st.tasks ∧
      ((run_due (run_due st now).1 t2).1).history =
        st.history ++
          [{ task := tk.name, timestamp := now, status := "failed"
             runs := Option.none
             error := some ("Task " ++ tk.name ++ " failed: " ++ e) },
           { task := tk.name, timestamp := t2, status := "failed"
             runs := Option.none
             error := some ("Task " ++ tk.name ++ " failed: " ++ e) }]) := by
  refine ⟨?_, isDue_mono, ?_⟩
  · intro st tk now e hget hf
    rw [execute_one_failure st tk now e hf, dictSet_self _ _ _ hget]
  · intro st tk now t2 e hst hdue hle hf
    have h1 := run_due_singleton_fail st tk now e hst hdue hf
    have hst1 : (run_due st now).1.tasks = [(tk.name, tk)] := by
      rw [h1]
      exact hst
    have h2 := run_due_singleton_fail (run_due st now).1 tk t2 e hst1
      (isDue_mono tk now t2 hdue hle) hf
    constructor
    · rw [h2, h1]
    · rw [h2, h1]
      simp

def tkC10 : STask Nat :=
  { name := "j", func := fun _ => .error "boom", schedule := some "every_5s"
    last_run := Option.none, next_run := some 0, runs := 0, enabled := true }

def stC10 : SchedState Nat := ⟨[("j", tkC10)], true, []⟩

/-- Witness for C10 on a concrete one-job scheduler polled at times 3 and 4. -/
theorem claim_C10_witness :
    execute_one stC10 tkC10 3 =
      ({ stC10 with history := stC10.history ++
          [{ task := tkC10.name, timestamp := 3, status := "failed"
             runs := Option.none
             error := some ("Task " ++ tkC10.name ++ " failed: " ++ "boom") }] },
       .error ("Task " ++ tkC10.name ++ " failed: " ++ "boom")) ∧
    isDue tkC10 4 = true ∧
    ((run_due (run_due stC10 3).1 4).1).tasks = stC10.tasks ∧
    ((run_due (run_due stC10 3).1 4).1).history =
      stC10.history ++
        [{ task := tkC10.name, timestamp := 3, status := "failed"
           runs := Option.none
           error := some ("Task " ++ tkC10.name ++ " failed: " ++ "boom") },
         { task := tkC10.name, timestamp := 4, status := "failed"
           runs := Option.none
           error := some ("Task " ++ tkC10.name ++ " failed: " ++ "boom") }] :=
  ⟨(claim_C10 Nat).1 stC10 tkC10 3 "boom" rfl rfl,
   (claim_C10 Nat).2.1 tkC10 3 4 rfl (by decide),
   ((claim_C10 Nat).2.2 stC10 tkC10 3 4 "boom" rfl rfl (by decide) rfl).1,
   ((claim_C10 Nat).2.2 stC10 tkC10 3 4 "boom" rfl rfl (by decide) rfl).2⟩

end Sched

end Agents
